import Mathlib

/-!
Verification development for the code-companion task orchestrator.

Shallow embedding of the core of the repository:
  * `src/src/manager.ts` — `CodeCompanionManager` (task lifecycle, step loop,
    cancellation, history);
  * the planner (`TaskPlanner.createPlan` / `parsePlanResponse` /
    `createDefaultPlan`);
  * the safety policy (`SafetyValidator.validateStep`);
  * the path-resolution prefix of `CodeExecutor.executeFileOperation`.

Modelling conventions:
  * TypeScript string unions (`TaskStatus`, `StepStatus`, `TaskType`) become
    inductives; the step `type` field stays a `String` because plan JSON can
    carry arbitrary strings for it and the code compares it with `===`.
  * `Date` values are wall-clock and not derivable in a pure embedding: a
    timestamp field is modelled as `Option Unit` (assigned / not assigned),
    and the derived `duration`/`progress` numbers are omitted.
  * JavaScript falsiness on strings (`s || ''`, `if (s)`) is modelled
    explicitly: `none` and `some ""` are both falsy.
  * External effects (the LLM, the executor's side effects, analysis of the
    workspace) are inputs: the step loop takes the per-iteration executor
    outcome and the "is the task still in the active map" observation as an
    environment.
-/

namespace CodeCompanion

/-- Status of one task, `src/unnamed/part_001` (types): `TaskStatus`. -/
inductive TaskStatus where
  | planning | analyzing | executing | completed | failed | cancelled
deriving Repr, DecidableEq

/-- Status of one step, `src/unnamed/part_001` (types): `StepStatus`. -/
inductive StepStatus where
  | pending | running | completed | failed
deriving Repr, DecidableEq

/-- Task kind, `src/unnamed/part_001` (types): `TaskType`. -/
inductive TaskType where
  | refactor | implement | fix | review | test | document
deriving Repr, DecidableEq

/-- Git metadata of the context, `src/unnamed/part_001` (types): `GitInfo`.
`branch`/`lastCommit`/`remoteUrl` are never read by the modelled functions
and are omitted; only `hasUncommittedChanges` is consulted by
`SafetyValidator.validateStep`. -/
structure GitInfo where
  hasUncommittedChanges : Bool
deriving Repr, DecidableEq

/-- Context snapshot, `src/unnamed/part_001` (types): `TaskContext`. The
fields that no modelled function reads (`dependencies`, `userPreferences`,
`recentChanges`, `openFiles`, `scripts`) are omitted. -/
structure TaskContext where
  workspaceRoot : Option String := none
  currentFile : Option String := none
  language : Option String := none
  projectType : Option String := none
  gitInfo : Option GitInfo := none
deriving Repr, DecidableEq

/-- Task submission parameters: the `params` bag as the default plans of
`TaskPlanner.createDefaultPlan` read it (`params.code`, `params.filePath`,
`params.description`, `params.errorMessage`, `params.stackTrace`). -/
structure TaskParams where
  code : Option String := none
  filePath : Option String := none
  description : Option String := none
  errorMessage : Option String := none
  stackTrace : Option String := none
deriving Repr, DecidableEq

/-- Step parameter bag (`TaskStep.parameters : Record<string, any>`): the
keys read by the modelled functions (`SafetyValidator.validateStep`, the
executor's path resolution) and the keys the default plans write. A key that
is absent in the TypeScript object is `none`. -/
structure StepParams where
  command : Option String := none
  cwd : Option String := none
  filePath : Option String := none
  operation : Option String := none
  content : Option String := none
  code : Option String := none
  language : Option String := none
  originalCode : Option String := none
  goal : Option String := none
  description : Option String := none
  context : Option TaskContext := none
  requirements : Option String := none
  testType : Option String := none
  errorMessage : Option String := none
  stackTrace : Option String := none
  taskType : Option TaskType := none
  params : Option TaskParams := none
  reviewType : Option String := none
  error : Option String := none
deriving Repr, DecidableEq

/-- One plan step, `src/unnamed/part_001` (types): `TaskStep`. Executor
results are opaque payloads; they are modelled as `String`. `startedAt` and
`completedAt` are wall-clock `Date`s, modelled as assigned-or-not. -/
structure TaskStep where
  id : String
  name : String := ""
  description : String := ""
  type : String := "analysis"
  status : StepStatus := .pending
  startedAt : Option Unit := none
  completedAt : Option Unit := none
  result : Option String := none
  error : Option String := none
  parameters : StepParams := {}
deriving Repr, DecidableEq

/-- Validator verdict, `src/unnamed/part_001` (types): `SafetyValidation`. -/
structure SafetyValidation where
  safe : Bool
  reason : Option String := none
  warnings : List String := []
  recommendations : List String := []
deriving Repr, DecidableEq

/-- A plan as the planner returns it: `{ steps, estimatedDuration }`. -/
structure Plan where
  steps : List TaskStep
  estimatedDuration : Nat
deriving Repr, DecidableEq

/-- Durable history record, `src/unnamed/part_001` (types): `TaskResult`.
The wall-clock `duration` field is omitted (see the module comment). -/
structure TaskResult where
  taskId : String
  type : TaskType
  success : Bool
  results : Option (List String) := none
  steps : Option (List TaskStep) := none
  error : Option String := none
  context : Option TaskContext := none
  params : Option TaskParams := none
deriving Repr, DecidableEq

/-- An active task, `src/unnamed/part_001` (types): `Task`. `createdAt`,
`completedAt`, `progress` (a float derived from `currentStep`) are omitted
(wall clock / floating point). -/
structure Task where
  id : String
  type : TaskType
  params : TaskParams := {}
  status : TaskStatus
  error : Option String := none
  steps : List TaskStep := []
  context : Option TaskContext := none
  estimatedDuration : Option Nat := none
  currentStep : Option Nat := none
deriving Repr, DecidableEq

/-- Containment of `pat` as a contiguous run of `l` (helper for
`strIncludes`). -/
def listContains (pat : List Char) : List Char → Bool
  | [] => pat.isEmpty
  | a :: as => pat.isPrefixOf (a :: as) || listContains pat as

/-- JavaScript substring test `s.includes(pat)`. -/
def strIncludes (s pat : String) : Bool :=
  listContains pat.data s.data

/-- JavaScript prefix test `s.startsWith(pre)`. -/
def strStartsWith (s pre : String) : Bool :=
  pre.data.isPrefixOf s.data

/-- JavaScript `s.toLowerCase()`, modelled character-wise with Lean's
(ASCII) `Char.toLower`; every pattern the validator compares against is
ASCII. -/
def strToLower (s : String) : String :=
  ⟨s.data.map Char.toLower⟩

/-- JavaScript `a || b` on an optional string: `none` and `""` are falsy. -/
def jsOr (a : Option String) (b : String) : String :=
  match a with
  | some s => if s = "" then b else s
  | none => b

/-- JavaScript truthiness of an optional string (`if (s) ...`). -/
def jsTruthy (a : Option String) : Bool :=
  match a with
  | some s => s ≠ ""
  | none => false

namespace SafetyValidator

/-- The fixed dangerous-operation list, `src/unnamed/part_003` lines 4-12. -/
def dangerousOperations : List String :=
  ["rm -rf", "sudo rm -rf", "del /s /q", "format", "dd if=/dev/zero", "shred", "wipe"]

/-- The fixed sensitive-path list, `src/unnamed/part_003` lines 14-23. -/
def sensitiveFiles : List String :=
  [".env", ".git", "node_modules", "package-lock.json", "yarn.lock",
   ".vscode/settings.json", "config.json", "secrets.json"]

/-- Block 1 of `validateStep` (`src/unnamed/part_003` lines 33-43): dangerous
terminal commands. The reason interpolates the original (non-lowercased)
command; `"undefined"` mirrors the JS template rendering of a missing key
(unreachable: a missing command lowers to `""`, which contains no entry). -/
def checkDangerousCommand (step : TaskStep) (v : SafetyValidation) : SafetyValidation :=
  if step.type = "terminal_command" then
    let command := strToLower (jsOr step.parameters.command "")
    if dangerousOperations.any (fun op => strIncludes command op) then
      { v with safe := false,
               reason := some ("Dangerous command detected: " ++ (step.parameters.command.getD "undefined")),
               warnings := v.warnings ++ ["This command could cause data loss or system damage"],
               recommendations := v.recommendations ++ ["Review the command carefully before execution"] }
    else v
  else v

/-- Block 2 of `validateStep` (`src/unnamed/part_003` lines 46-60): sensitive
file operations. -/
def checkSensitiveFile (step : TaskStep) (v : SafetyValidation) : SafetyValidation :=
  if step.type = "file_operation" then
    let filePath := jsOr step.parameters.filePath ""
    let operation := jsOr step.parameters.operation ""
    let isSensitiveFile := sensitiveFiles.any (fun sensitive => strIncludes filePath sensitive)
    if isSensitiveFile ∧ (operation = "delete" ∨ operation = "replace") then
      { v with safe := false,
               reason := some ("Attempting to modify sensitive file: " ++ filePath),
               warnings := v.warnings ++ ["This operation could affect project configuration or security"],
               recommendations := v.recommendations ++ ["Backup the file before proceeding"] }
    else v
  else v

/-- Block 3 of `validateStep` (`src/unnamed/part_003` lines 63-71): workspace
boundary violations. `if (context.workspaceRoot)` and `if (filePath && ...)`
are JS truthiness tests: an absent or empty string skips the check. -/
def checkWorkspaceBoundary (step : TaskStep) (context : TaskContext) (v : SafetyValidation) : SafetyValidation :=
  if jsTruthy context.workspaceRoot then
    let wr := context.workspaceRoot.getD ""
    let filePath := jsOr step.parameters.filePath ""
    if filePath ≠ "" ∧ ¬ (strStartsWith filePath wr = true) then
      { v with safe := false,
               reason := some ("Operation outside workspace boundary: " ++ filePath),
               warnings := v.warnings ++ ["This operation targets files outside the current workspace"],
               recommendations := v.recommendations ++ ["Ensure the file path is within the workspace"] }
    else v
  else v

/-- Block 4 of `validateStep` (`src/unnamed/part_003` lines 74-77): advisory
warning on uncommitted git changes. Never touches `safe`/`reason`. -/
def checkGitWarning (step : TaskStep) (context : TaskContext) (v : SafetyValidation) : SafetyValidation :=
  if (match context.gitInfo with
      | some g => g.hasUncommittedChanges
      | none => false) = true ∧ step.type = "file_operation" then
    { v with warnings := v.warnings ++ ["There are uncommitted changes in the git repository"],
             recommendations := v.recommendations ++ ["Consider committing or stashing changes before proceeding"] }
  else v

/-- Block 5 of `validateStep` (`src/unnamed/part_003` lines 80-86): advisory
warning on payloads over 1 MB. Never touches `safe`/`reason`. -/
def checkLargeContent (step : TaskStep) (v : SafetyValidation) : SafetyValidation :=
  if step.type = "file_operation" ∧ jsTruthy step.parameters.content = true then
    if (step.parameters.content.getD "").length > 1000000 then
      { v with warnings := v.warnings ++ ["Large file operation detected"],
               recommendations := v.recommendations ++ ["Consider breaking this into smaller operations"] }
    else v
  else v

/-- Block 6 of `validateStep` (`src/unnamed/part_003` lines 89-95): advisory
warning on glob-style recursive patterns (the original command, not
lowercased). Never touches `safe`/`reason`. -/
def checkRecursivePattern (step : TaskStep) (v : SafetyValidation) : SafetyValidation :=
  if step.type = "terminal_command" then
    let command := jsOr step.parameters.command ""
    if strIncludes command "**" ∨ strIncludes command "/*" ∨ strIncludes command "\\*" then
      { v with warnings := v.warnings ++ ["Recursive operation detected"],
               recommendations := v.recommendations ++ ["Verify the scope of this operation"] }
    else v
  else v

/-- The validator, `SafetyValidator.validateStep` of `src/unnamed/part_003`
lines 25-98: starts from `{safe: true}` and runs the six blocks in source
order, each mutating the verdict in place. -/
def validateStep (step : TaskStep) (context : TaskContext) : SafetyValidation :=
  checkRecursivePattern step
    (checkLargeContent step
      (checkGitWarning step context
        (checkWorkspaceBoundary step context
          (checkSensitiveFile step
            (checkDangerousCommand step { safe := true })))))

end SafetyValidator

namespace TaskPlanner

/-- One element of the `steps` array of the parsed plan JSON, as
`TaskPlanner.parsePlanResponse` (`src/unnamed/part_002` lines 112-119)
destructures it: each per-step field may be absent. -/
structure ParsedStep where
  id : Option String := none
  name : Option String := none
  description : Option String := none
  type : Option String := none
  parameters : Option StepParams := none
deriving Repr, DecidableEq

/-- Outcome of extracting and JSON-parsing the LLM response
(`src/unnamed/part_002` lines 104-110): `noJson` covers both a response with
no `{...}` span (the regex misses) and one whose span `JSON.parse` rejects;
`parsed steps estimatedDuration` is the parsed object, where `steps = none`
models a missing or non-array `steps` field (on which `parsed.steps.map`
throws) and `estimatedDuration = none` a missing/zero-free field. -/
inductive PlanResponse where
  | noJson
  | parsed (steps : Option (List ParsedStep)) (estimatedDuration : Option Nat)
deriving Repr, DecidableEq

/-- Per-step defaulting of `parsePlanResponse` (`src/unnamed/part_002` lines
112-119); `index` is the 0-based map index. -/
def stepFromParsed (index : Nat) (p : ParsedStep) : TaskStep :=
  { id := jsOr p.id ("step_" ++ toString (index + 1)),
    name := jsOr p.name ("Step " ++ toString (index + 1)),
    description := jsOr p.description "",
    type := jsOr p.type "analysis",
    status := .pending,
    parameters := p.parameters.getD {} }

/-- The indexed map over the parsed `steps` array. -/
def stepsFromParsed : Nat → List ParsedStep → List TaskStep
  | _, [] => []
  | i, p :: ps => stepFromParsed i p :: stepsFromParsed (i + 1) ps

/-- The planner's response parser, `TaskPlanner.parsePlanResponse`
(`src/unnamed/part_002` lines 102-129). A missing `steps` field makes
`parsed.steps.map` throw, caught and rethrown as the format error; an empty
`steps` array maps to an empty list and succeeds. `parsed.estimatedDuration
|| 300` treats a missing (or zero) duration as 300. -/
def parsePlanResponse : PlanResponse → Except String Plan
  | .noJson => .error "Invalid plan response format"
  | .parsed none _ => .error "Invalid plan response format"
  | .parsed (some steps) ed =>
      .ok { steps := stepsFromParsed 0 steps,
            estimatedDuration :=
              match ed with
              | some d => if d = 0 then 300 else d
              | none => 300 }

/-- The deterministic fallback, `TaskPlanner.createDefaultPlan`
(`src/unnamed/part_002` lines 131-284): a fixed hand-authored step sequence
per task type (`test` and `document` fall to the default branch), with
`estimatedDuration = steps.length * 60`. -/
def createDefaultPlan (type : TaskType) (params : TaskParams) (context : TaskContext) : Plan :=
  let steps : List TaskStep :=
    match type with
    | .refactor =>
        [{ id := "step_1", name := "Analyze Code",
           description := "Analyze the selected code for refactoring opportunities",
           type := "analysis", status := .pending,
           parameters := { code := params.code, language := context.language } },
         { id := "step_2", name := "Generate Refactored Code",
           description := "Generate improved version of the code",
           type := "code_generation", status := .pending,
           parameters := { originalCode := params.code,
                           goal := some "improve readability and maintainability" } },
         { id := "step_3", name := "Apply Changes",
           description := "Apply the refactored code to the file",
           type := "file_operation", status := .pending,
           parameters := { filePath := params.filePath, operation := some "replace" } }]
    | .implement =>
        [{ id := "step_1", name := "Analyze Requirements",
           description := "Analyze the feature requirements",
           type := "analysis", status := .pending,
           parameters := { description := params.description } },
         { id := "step_2", name := "Design Solution",
           description := "Design the implementation approach",
           type := "analysis", status := .pending,
           parameters := { context := some context } },
         { id := "step_3", name := "Generate Implementation",
           description := "Generate the feature implementation",
           type := "code_generation", status := .pending,
           parameters := { requirements := params.description, context := some context } },
         { id := "step_4", name := "Create Tests",
           description := "Generate tests for the new feature",
           type := "code_generation", status := .pending,
           parameters := { testType := some "unit", context := some context } },
         { id := "step_5", name := "Update Documentation",
           description := "Generate or update project README and docs",
           type := "documentation", status := .pending,
           parameters := {} }]
    | .fix =>
        [{ id := "step_1", name := "Analyze Error",
           description := "Analyze the error message and stack trace",
           type := "analysis", status := .pending,
           parameters := { errorMessage := params.errorMessage, stackTrace := params.stackTrace } },
         { id := "step_2", name := "Generate Fix",
           description := "Generate the fix for the identified issue",
           type := "code_generation", status := .pending,
           parameters := { originalCode := params.code, error := params.errorMessage } },
         { id := "step_3", name := "Apply Fix",
           description := "Apply the fix to the file",
           type := "file_operation", status := .pending,
           parameters := { filePath := params.filePath, operation := some "replace" } }]
    | .review =>
        [{ id := "step_1", name := "Code Analysis",
           description := "Analyze the code for quality, security, and performance issues",
           type := "analysis", status := .pending,
           parameters := { code := params.code, language := context.language } },
         { id := "step_2", name := "Generate Review Report",
           description := "Generate a comprehensive code review report",
           type := "code_generation", status := .pending,
           parameters := { reviewType := some "comprehensive", code := params.code } }]
    | _ =>
        [{ id := "step_1", name := "Analyze Task",
           description := "Analyze the task requirements",
           type := "analysis", status := .pending,
           parameters := { taskType := some type, params := some params } },
         { id := "step_2", name := "Execute Task",
           description := "Execute the requested task",
           type := "code_generation", status := .pending,
           parameters := { taskType := some type, params := some params, context := some context } }]
  { steps := steps, estimatedDuration := steps.length * 60 }

/-- The planner entry point, `TaskPlanner.createPlan` (`src/unnamed/part_002`
lines 11-22): the LLM call and JSON extraction are an input
(`llmOutcome`: `.error` when `this.llm.generate` throws); any throw inside
the `try` — the LLM call or `parsePlanResponse` — falls back to the default
plan. -/
def createPlan (type : TaskType) (params : TaskParams) (context : TaskContext)
    (llmOutcome : Except String PlanResponse) : Plan :=
  match llmOutcome with
  | .error _ => createDefaultPlan type params context
  | .ok response =>
      match parsePlanResponse response with
      | .ok plan => plan
      | .error _ => createDefaultPlan type params context

end TaskPlanner

namespace CodeExecutor

/-- Path resolution prefix of `CodeExecutor.executeFileOperation`
(`src/unnamed/part_001` lines 986-1002): the step's `filePath` parameter,
else the context's current file, else an interactive input box (modelled as
the oracle `promptAnswer`; `showInputBox(...) || undefined` maps an empty
answer to `none`). `none` overall means the operation throws
`File path is required for file operations`. -/
def resolveFilePath (params : StepParams) (context : TaskContext)
    (promptAnswer : Option String) : Option String :=
  if jsTruthy params.filePath then params.filePath
  else if jsTruthy context.currentFile then context.currentFile
  else if jsTruthy promptAnswer then promptAnswer
  else none

end CodeExecutor

namespace CodeCompanionManager

/-- Outcome of one `executor.executeStep` call, as the manager's loop
observes it: a result payload, or a thrown error's message. -/
inductive ExecOutcome where
  | success (result : String)
  | failure (msg : String)
deriving Repr, DecidableEq

/-- Environment of one run of the step loop: for iteration `i` (0-based),
whether the task id is still in `activeTasks` at the top of the iteration
(`cancelTask` deletes it there, concurrently), and the executor outcome of
iteration `i` (consulted only if the iteration reaches the executor call). -/
structure LoopEnv where
  activeAt : Nat → Bool
  execAt : Nat → ExecOutcome

/-- Status-assignment events of the loop, for stating the step-status
transition discipline: `setRunning i` models `step.status = 'running'` on
the step at index `i`, and so on. -/
inductive StepEvent where
  | setRunning (i : Nat)
  | setCompleted (i : Nat)
  | setFailed (i : Nat)
deriving Repr, DecidableEq

/-- Index of the step an event mutates. -/
def StepEvent.idx : StepEvent → Nat
  | .setRunning i => i
  | .setCompleted i => i
  | .setFailed i => i

/-- What the loop leaves behind: the step list (mutated in place in the
source), the aggregated `results` array, the thrown error's message if the
loop aborted, and the status-assignment trace. -/
structure LoopResult where
  steps : List TaskStep
  results : List String
  error : Option String
  events : List StepEvent
deriving Repr, DecidableEq

/-- Mutation `step.status = 'running'; step.startedAt = new Date()`. -/
def markRunning (s : TaskStep) : TaskStep :=
  { s with status := .running, startedAt := some () }

/-- Cumulative mutation of a step the executor finished: `running` then
`completed`, timestamps set, result stored. -/
def completeWith (r : String) (s : TaskStep) : TaskStep :=
  { s with status := .completed, startedAt := some (), completedAt := some (),
           result := some r }

/-- Cumulative mutation of a step whose iteration threw: `running` then
`failed`, the error message attached. -/
def failWith (msg : String) (s : TaskStep) : TaskStep :=
  { s with status := .failed, startedAt := some (), completedAt := some (),
           error := some msg }

/-- The step loop of `CodeCompanionManager.executeTask` (`src/src/manager.ts`
lines 79-119), one iteration per list element, `i` the loop index. The
cancellation check precedes any step mutation; the safety check runs inside
the inner `try`, so an unsafe verdict marks the step failed (with the thrown
message) before aborting; an executor throw does the same. `"undefined"` in
the unsafe message mirrors JS template interpolation of a reason that was
never set (unreachable: an unsafe verdict always sets one). -/
def execLoop (env : LoopEnv) (context : TaskContext) : Nat → List TaskStep → LoopResult
  | _, [] => { steps := [], results := [], error := none, events := [] }
  | i, step :: rest =>
    if env.activeAt i then
      let validation := SafetyValidator.validateStep (markRunning step) context
      if validation.safe then
        match env.execAt i with
        | .success r =>
            let tail := execLoop env context (i + 1) rest
            { steps := completeWith r step :: tail.steps,
              results := r :: tail.results,
              error := tail.error,
              events := .setRunning i :: .setCompleted i :: tail.events }
        | .failure msg =>
            { steps := failWith msg step :: rest, results := [], error := some msg,
              events := [.setRunning i, .setFailed i] }
      else
        let msg := "Safety validation failed: " ++ validation.reason.getD "undefined"
        { steps := failWith msg step :: rest, results := [], error := some msg,
          events := [.setRunning i, .setFailed i] }
    else
      { steps := step :: rest, results := [], error := some "Task cancelled by user",
        events := [] }

/-- The step loop of `CodeCompanionManager.runCustomPlan`
(`src/src/manager.ts` lines 227-254). It differs from `execLoop` in one
place: the safety check sits OUTSIDE the inner `try`, so an unsafe verdict
aborts the task but leaves the step with status `running` and no error
attached. -/
def customLoop (env : LoopEnv) (context : TaskContext) : Nat → List TaskStep → LoopResult
  | _, [] => { steps := [], results := [], error := none, events := [] }
  | i, step :: rest =>
    if env.activeAt i then
      let validation := SafetyValidator.validateStep (markRunning step) context
      if validation.safe then
        match env.execAt i with
        | .success r =>
            let tail := customLoop env context (i + 1) rest
            { steps := completeWith r step :: tail.steps,
              results := r :: tail.results,
              error := tail.error,
              events := .setRunning i :: .setCompleted i :: tail.events }
        | .failure msg =>
            { steps := failWith msg step :: rest, results := [], error := some msg,
              events := [.setRunning i, .setFailed i] }
      else
        let msg := "Safety validation failed: " ++ validation.reason.getD "undefined"
        { steps := markRunning step :: rest, results := [], error := some msg,
          events := [.setRunning i] }
    else
      { steps := step :: rest, results := [], error := some "Task cancelled by user",
        events := [] }

/-- Terminal bookkeeping shared by `executeTask` (`src/src/manager.ts` lines
121-166) and `runCustomPlan` (lines 256-297): on a clean loop the task is
`completed` and a successful `TaskResult` is built; on a thrown error the
catch block sets the task to `failed` — overwriting any status `cancelTask`
set on the same object — and builds a failed `TaskResult` without a
`results` field. `currentStep` is the last `i + 1` the progress update saw,
that is the number of completed steps (unset when none completed). -/
def finishTask (taskId : String) (type : TaskType) (params : TaskParams)
    (context : TaskContext) (estimatedDuration : Option Nat) (lr : LoopResult) :
    Task × TaskResult :=
  let currentStep : Option Nat := if lr.results.length = 0 then none else some lr.results.length
  match lr.error with
  | none =>
      ({ id := taskId, type := type, params := params, status := .completed,
         error := none, steps := lr.steps, context := some context,
         estimatedDuration := estimatedDuration, currentStep := currentStep },
       { taskId := taskId, type := type, success := true,
         results := some lr.results, steps := some lr.steps, error := none,
         context := some context, params := some params })
  | some msg =>
      ({ id := taskId, type := type, params := params, status := .failed,
         error := some msg, steps := lr.steps, context := some context,
         estimatedDuration := estimatedDuration, currentStep := currentStep },
       { taskId := taskId, type := type, success := false,
         results := none, steps := some lr.steps, error := some msg,
         context := some context, params := some params })

/-- `executeTask` from the point the plan is in hand (`src/src/manager.ts`
lines 76-166): context analysis and planning are the inputs `context` and
`planSteps`/`estimatedDuration`; the function yields the final value of the
`task` object and the `TaskResult` pushed to history. -/
def executeTaskRun (env : LoopEnv) (taskId : String) (type : TaskType)
    (params : TaskParams) (context : TaskContext) (planSteps : List TaskStep)
    (estimatedDuration : Nat) : Task × TaskResult :=
  finishTask taskId type params context (some estimatedDuration)
    (execLoop env context 0 planSteps)

/-- `runCustomPlan` from the point the context is in hand
(`src/src/manager.ts` lines 220-297): the caller supplies the steps; the
task never gets an `estimatedDuration`. -/
def runCustomPlanRun (env : LoopEnv) (taskId : String) (type : TaskType)
    (params : TaskParams) (context : TaskContext) (customSteps : List TaskStep) :
    Task × TaskResult :=
  finishTask taskId type params context none (customLoop env context 0 customSteps)

/-- History push, `CodeCompanionManager.pushToHistory` (`src/src/manager.ts`
lines 364-372): append, then `shift()` the oldest entry away when the length
exceeds 50. -/
def pushToHistory (history : List TaskResult) (result : TaskResult) : List TaskResult :=
  let h := history ++ [result]
  if h.length > 50 then h.tail else h

/-- The manager's shared mutable state: the id-keyed active map (association
list; ids are unique) and the bounded history. -/
structure ManagerState where
  activeTasks : List (String × Task)
  taskHistory : List TaskResult

/-- Lookup `getTaskById` (`src/src/manager.ts` lines 187-189):
`activeTasks.get(taskId)`. -/
def getTaskById (s : ManagerState) (taskId : String) : Option Task :=
  (s.activeTasks.find? (fun p => p.1 = taskId)).map (fun p => p.2)

/-- Map deletion `activeTasks.delete(taskId)`. -/
def deleteActive (s : ManagerState) (taskId : String) : ManagerState :=
  { s with activeTasks := s.activeTasks.filter (fun p => ¬ p.1 = taskId) }

/-- Observable state transitions of the manager, at the granularity an
observer (single-threaded event loop) can see:
  * `submit task` — `activeTasks.set(taskId, task)` at the top of
    `executeTask`/`runCustomPlan`;
  * `finalize result` — the synchronous terminal block
    `pushToHistory(taskResult); activeTasks.delete(taskId)` (no suspension
    point separates the two statements);
  * `cancel id` — `cancelTask` (`src/src/manager.ts` lines 191-203): if
    active, mark the task object `cancelled` and delete it from the map (no
    history write); otherwise no change. -/
inductive MOp where
  | submit (task : Task)
  | finalize (result : TaskResult)
  | cancel (taskId : String)

/-- Application of one observable transition. -/
def applyOp (s : ManagerState) : MOp → ManagerState
  | .submit task => { s with activeTasks := (task.id, task) :: s.activeTasks }
  | .finalize result =>
      deleteActive { s with taskHistory := pushToHistory s.taskHistory result } result.taskId
  | .cancel taskId =>
      match getTaskById s taskId with
      | some _ => deleteActive s taskId
      | none => s

/-- Freshness obligation of a transition: `generateTaskId` (a timestamp plus
random suffix) never reuses an id, so a submitted task's id is in neither
the active map nor the history. -/
def opOk (s : ManagerState) : MOp → Prop
  | .submit task =>
      (∀ p ∈ s.activeTasks, ¬ p.1 = task.id) ∧
      (∀ r ∈ s.taskHistory, ¬ r.taskId = task.id)
  | .finalize _ => True
  | .cancel _ => True

/-- Disjointness invariant: no id is at once a key of the active map and the
id of a history record. -/
def ActiveHistoryDisjoint (s : ManagerState) : Prop :=
  ∀ p ∈ s.activeTasks, ∀ r ∈ s.taskHistory, ¬ p.1 = r.taskId

/-- The empty initial state (constructor of `CodeCompanionManager`, with no
persisted history). -/
def initState : ManagerState := { activeTasks := [], taskHistory := [] }

/-- Expected shape of a fully executed prefix of the step loop: step `j` of
`pre` (0-based, loop index `i + j`) completed with result `resFn (i + j)`. -/
def completeFrom (resFn : Nat → String) : Nat → List TaskStep → List TaskStep
  | _, [] => []
  | i, s :: rest => completeWith (resFn i) s :: completeFrom resFn (i + 1) rest

/-- Expected `results` array of `k` successful iterations starting at loop
index `i`. -/
def resultsFrom (resFn : Nat → String) : Nat → Nat → List String
  | _, 0 => []
  | i, k + 1 => resFn i :: resultsFrom resFn (i + 1) k

/-- Expected event trace of `k` successful iterations starting at loop
index `i`. -/
def eventsFrom : Nat → Nat → List StepEvent
  | _, 0 => []
  | i, k + 1 => .setRunning i :: .setCompleted i :: eventsFrom (i + 1) k

/-- The status assignments a trace makes to the step at index `j`, in
order. -/
def eventsFor (E : List StepEvent) (j : Nat) : List StepEvent :=
  E.filter (fun e => e.idx = j)

/-- Transition discipline of one step across a whole run: starting from
`pending`, its status assignments are one of — none at all, `running` only,
`running` then `completed`, or `running` then `failed`. In particular the
status never regresses and a terminal status is always preceded by
`running`. -/
def StepTraceOk (E : List StepEvent) : Prop :=
  ∀ j, eventsFor E j = [] ∨ eventsFor E j = [.setRunning j] ∨
       eventsFor E j = [.setRunning j, .setCompleted j] ∨
       eventsFor E j = [.setRunning j, .setFailed j]

/-- Position of a status in the claimed order
`pending < running < (completed or failed)`. -/
def statusRank : StepStatus → Nat
  | .pending => 0
  | .running => 1
  | .completed => 2
  | .failed => 2

end CodeCompanionManager

end CodeCompanion

section SanityChecks
-- Concrete evaluations of the embedding on the spec's own examples, checked
-- by the kernel; they keep the definitions honest while the general
-- theorems below abstract over inputs.
open CodeCompanion CodeCompanion.SafetyValidator

example : strIncludes "rm -rf /tmp/x" "rm -rf" = true := by decide

example :
    (validateStep
      { id := "s1", type := "terminal_command",
        parameters := { command := some "rm -rf /tmp/x" } }
      { workspaceRoot := some "/home/u/proj" }).safe = false := by decide

example :
    (validateStep
      { id := "s1", type := "terminal_command",
        parameters := { command := some "rm -rf /tmp/x" } }
      { workspaceRoot := some "/home/u/proj" }).reason
    = some "Dangerous command detected: rm -rf /tmp/x" := by decide

example :
    (validateStep
      { id := "s1", type := "file_operation",
        parameters := { filePath := some "/home/u/proj/.env", operation := some "replace" } }
      { workspaceRoot := some "/home/u/proj" }).safe = false := by decide

example :
    (validateStep
      { id := "s1", type := "file_operation",
        parameters := { filePath := some "/home/u/proj/src/new.ts", operation := some "create" } }
      { workspaceRoot := some "/home/u/proj" }).safe = true := by decide

example :
    (validateStep
      { id := "s1", type := "file_operation",
        parameters := { filePath := some "/etc/passwd", operation := some "create" } }
      { workspaceRoot := some "/home/u/proj" }).reason
    = some "Operation outside workspace boundary: /etc/passwd" := by decide

example :
    (TaskPlanner.createPlan .refactor {} {} (.ok (.parsed (some []) (some 100))))
    = { steps := [], estimatedDuration := 100 } := by decide

example :
    (TaskPlanner.createPlan .refactor {} {} (.ok .noJson))
    = TaskPlanner.createDefaultPlan .refactor {} {} := by decide

example :
    (TaskPlanner.createDefaultPlan .implement {} {}).estimatedDuration = 300 := by decide

open CodeCompanionManager in
example :
    (executeTaskRun
      { activeAt := fun i => decide (i < 2), execAt := fun _ => .success "ok" }
      "t1" .implement {} {}
      [{ id := "s1" }, { id := "s2" }, { id := "s3" }, { id := "s4" }, { id := "s5" }]
      300).1.status = .failed := by decide

open CodeCompanionManager in
example :
    ((customLoop
      { activeAt := fun _ => true, execAt := fun _ => .success "ok" }
      { workspaceRoot := some "/w" } 0
      [{ id := "s1", type := "terminal_command",
         parameters := { command := some "rm -rf /" } }]).steps.head?.map
        (fun s => s.status)) = some .running := by decide

end SanityChecks

namespace CodeCompanion
namespace SafetyValidator

theorem checkGitWarning_safe (s : TaskStep) (c : TaskContext) (v : SafetyValidation) :
    (checkGitWarning s c v).safe = v.safe := by
  unfold checkGitWarning; split <;> rfl

theorem checkGitWarning_reason (s : TaskStep) (c : TaskContext) (v : SafetyValidation) :
    (checkGitWarning s c v).reason = v.reason := by
  unfold checkGitWarning; split <;> rfl

theorem checkLargeContent_safe (s : TaskStep) (v : SafetyValidation) :
    (checkLargeContent s v).safe = v.safe := by
  unfold checkLargeContent
  split
  · split <;> rfl
  · rfl

theorem checkLargeContent_reason (s : TaskStep) (v : SafetyValidation) :
    (checkLargeContent s v).reason = v.reason := by
  unfold checkLargeContent
  split
  · split <;> rfl
  · rfl

theorem checkRecursivePattern_safe (s : TaskStep) (v : SafetyValidation) :
    (checkRecursivePattern s v).safe = v.safe := by
  simp only [checkRecursivePattern]
  split
  · split <;> rfl
  · rfl

theorem checkRecursivePattern_reason (s : TaskStep) (v : SafetyValidation) :
    (checkRecursivePattern s v).reason = v.reason := by
  simp only [checkRecursivePattern]
  split
  · split <;> rfl
  · rfl

/-- The three advisory blocks after the boundary check change neither `safe`
nor `reason`; `validateStep` agrees with the first three blocks there. -/
theorem validateStep_safe_eq (step : TaskStep) (context : TaskContext) :
    (validateStep step context).safe
    = (checkWorkspaceBoundary step context
        (checkSensitiveFile step
          (checkDangerousCommand step { safe := true }))).safe := by
  unfold validateStep
  rw [checkRecursivePattern_safe, checkLargeContent_safe, checkGitWarning_safe]

/-- Reason version of `validateStep_safe_eq`. -/
theorem validateStep_reason_eq (step : TaskStep) (context : TaskContext) :
    (validateStep step context).reason
    = (checkWorkspaceBoundary step context
        (checkSensitiveFile step
          (checkDangerousCommand step { safe := true }))).reason := by
  unfold validateStep
  rw [checkRecursivePattern_reason, checkLargeContent_reason, checkGitWarning_reason]

theorem checkDangerousCommand_safe_false (s : TaskStep) (v : SafetyValidation)
    (h : v.safe = false) : (checkDangerousCommand s v).safe = false := by
  simp only [checkDangerousCommand]
  split
  · split
    · rfl
    · exact h
  · exact h

theorem checkSensitiveFile_safe_false (s : TaskStep) (v : SafetyValidation)
    (h : v.safe = false) : (checkSensitiveFile s v).safe = false := by
  simp only [checkSensitiveFile]
  split
  · split
    · rfl
    · exact h
  · exact h

theorem checkWorkspaceBoundary_safe_false (s : TaskStep) (c : TaskContext)
    (v : SafetyValidation) (h : v.safe = false) :
    (checkWorkspaceBoundary s c v).safe = false := by
  simp only [checkWorkspaceBoundary]
  split
  · split
    · rfl
    · exact h
  · exact h

/-- The boundary block fires whenever the context has a non-empty workspace
root and the step carries a non-empty file path that is not prefixed by it,
setting `safe := false` and overwriting the reason. -/
theorem checkWorkspaceBoundary_fires (s : TaskStep) (c : TaskContext)
    (v : SafetyValidation) (wr fp : String)
    (hwr : c.workspaceRoot = some wr) (hwrne : wr ≠ "")
    (hfp : s.parameters.filePath = some fp) (hfpne : fp ≠ "")
    (hpre : strStartsWith fp wr = false) :
    (checkWorkspaceBoundary s c v).safe = false ∧
    (checkWorkspaceBoundary s c v).reason
      = some ("Operation outside workspace boundary: " ++ fp) := by
  have h2 : jsOr s.parameters.filePath "" = fp := by
    rw [hfp]; simp [jsOr, hfpne]
  simp [checkWorkspaceBoundary, hwr, jsTruthy, hwrne, h2, hfpne, hpre]

theorem jsOr_some_empty (s : String) : jsOr (some s) "" = s := by
  simp only [jsOr]; split <;> simp_all

theorem checkDangerousCommand_skip (s : TaskStep) (v : SafetyValidation)
    (hty : ¬ s.type = "terminal_command") : checkDangerousCommand s v = v := by
  simp only [checkDangerousCommand]
  rw [if_neg hty]

theorem checkSensitiveFile_skip_type (s : TaskStep) (v : SafetyValidation)
    (hty : ¬ s.type = "file_operation") : checkSensitiveFile s v = v := by
  simp only [checkSensitiveFile]
  rw [if_neg hty]

/-- The sensitive-file block does not fire when its condition — sensitive
path together with a `delete`/`replace` operation — fails. -/
theorem checkSensitiveFile_noop (s : TaskStep) (v : SafetyValidation)
    (h : ¬ ((SafetyValidator.sensitiveFiles.any
              (fun sensitive => strIncludes (jsOr s.parameters.filePath "") sensitive)) = true
            ∧ (jsOr s.parameters.operation "" = "delete"
               ∨ jsOr s.parameters.operation "" = "replace"))) :
    checkSensitiveFile s v = v := by
  simp only [checkSensitiveFile]
  split
  all_goals first
    | rfl
    | exact if_neg h

/-- The boundary block does not fire when the context has no (truthy)
workspace root, or the step's file path is falsy, or the path does start
with the root. -/
theorem checkWorkspaceBoundary_noop (s : TaskStep) (c : TaskContext) (v : SafetyValidation)
    (h : jsTruthy c.workspaceRoot = false
         ∨ jsOr s.parameters.filePath "" = ""
         ∨ strStartsWith (jsOr s.parameters.filePath "") (c.workspaceRoot.getD "") = true) :
    checkWorkspaceBoundary s c v = v := by
  simp only [checkWorkspaceBoundary]
  rcases h with h | h | h
  · rw [if_neg (by simp [h])]
  · split
    · rw [if_neg (fun hc => hc.1 h)]
    · rfl
  · split
    · rw [if_neg (fun hc => hc.2 h)]
    · rfl

/-- The dangerous-command block fires on a terminal command whose lowered
command text contains a dangerous operation; the reason quotes the original
command. -/
theorem checkDangerousCommand_fires (s : TaskStep) (v : SafetyValidation) (c : String)
    (hty : s.type = "terminal_command")
    (hc : s.parameters.command = some c)
    (hany : (dangerousOperations.any fun op => strIncludes (strToLower c) op) = true) :
    (checkDangerousCommand s v).safe = false ∧
    (checkDangerousCommand s v).reason = some ("Dangerous command detected: " ++ c) := by
  simp only [checkDangerousCommand, hc, jsOr_some_empty, Option.getD_some]
  rw [if_pos hty, if_pos hany]
  exact ⟨rfl, rfl⟩

/-- The sensitive-file block fires on a file operation whose path contains a
sensitive entry and whose operation is `delete` or `replace`. -/
theorem checkSensitiveFile_fires (s : TaskStep) (v : SafetyValidation) (fp op : String)
    (hty : s.type = "file_operation")
    (hfp : s.parameters.filePath = some fp)
    (hop : s.parameters.operation = some op)
    (hopdr : op = "delete" ∨ op = "replace")
    (hany : (sensitiveFiles.any fun sensitive => strIncludes fp sensitive) = true) :
    (checkSensitiveFile s v).safe = false ∧
    (checkSensitiveFile s v).reason = some ("Attempting to modify sensitive file: " ++ fp) := by
  simp only [checkSensitiveFile, hfp, hop, jsOr_some_empty]
  rw [if_pos hty, if_pos ⟨hany, hopdr⟩]
  exact ⟨rfl, rfl⟩

/-- A character list fixed pointwise by `f` stays a prefix after mapping
`f` over the larger list. -/
theorem isPrefixOf_map_fixed (f : Char → Char) :
    ∀ (p l : List Char), p.map f = p → p.isPrefixOf l = true →
      p.isPrefixOf (l.map f) = true := by
  intro p
  induction p with
  | nil => intro l _ _; cases l <;> rfl
  | cons x xs ih =>
      intro l hp h
      cases l with
      | nil => exact absurd h (by simp [List.isPrefixOf])
      | cons b bs =>
          simp only [List.isPrefixOf, Bool.and_eq_true, beq_iff_eq] at h
          obtain ⟨rfl, hrest⟩ := h
          simp only [List.map_cons, List.cons.injEq] at hp
          obtain ⟨hx, hxs⟩ := hp
          simp only [List.map_cons, List.isPrefixOf, hx, Bool.and_eq_true, beq_iff_eq]
          exact ⟨trivial, ih bs hxs hrest⟩

/-- Containment is preserved under mapping `f` when the pattern is fixed by
`f`. -/
theorem listContains_map_fixed (f : Char → Char) (pat : List Char) :
    ∀ (l : List Char), pat.map f = pat → listContains pat l = true →
      listContains pat (l.map f) = true := by
  intro l
  induction l with
  | nil => intro _ h; simpa [listContains] using h
  | cons a as ih =>
      intro hp h
      simp only [listContains, Bool.or_eq_true] at h
      rcases h with h | h
      · have := isPrefixOf_map_fixed f pat (a :: as) hp h
        simp only [List.map_cons] at this
        simp [listContains, this]
      · have := ih hp h
        simp [listContains, this]

/-- JavaScript lowering preserves containment of an already-lowercase
pattern. -/
theorem strIncludes_strToLower (c pat : String)
    (hp : pat.data.map Char.toLower = pat.data)
    (h : strIncludes c pat = true) :
    strIncludes (strToLower c) pat = true := by
  have := listContains_map_fixed Char.toLower pat.data c.data hp
    (by simpa [strIncludes] using h)
  simpa [strIncludes, strToLower] using this

/-- Every entry of the dangerous-operation list is already lowercase. -/
theorem dangerousOperations_lower_fixed (op : String) (h : op ∈ dangerousOperations) :
    op.data.map Char.toLower = op.data := by
  fin_cases h <;> decide

end SafetyValidator

open SafetyValidator in
/-- C9: for every step carrying a non-empty `filePath` parameter, when the
context has a (non-empty) workspace root and the path is not prefixed by it,
`validateStep` returns `safe = false` with the boundary-violation reason,
regardless of step type or operation. -/
theorem c9_workspace_boundary_blocks (step : TaskStep) (context : TaskContext)
    (wr fp : String)
    (hwr : context.workspaceRoot = some wr) (hwrne : ¬ wr = "")
    (hfp : step.parameters.filePath = some fp) (hfpne : ¬ fp = "")
    (hpre : strStartsWith fp wr = false) :
    (validateStep step context).safe = false ∧
    (validateStep step context).reason
      = some ("Operation outside workspace boundary: " ++ fp) := by
  rw [validateStep_safe_eq, validateStep_reason_eq]
  exact checkWorkspaceBoundary_fires _ _ _ wr fp hwr hwrne hfp hfpne hpre

open SafetyValidator in
/-- Witness for C9: workspace `/home/u/proj`, path `/etc/passwd`. -/
theorem c9_workspace_boundary_blocks_witness :
    (validateStep
      { id := "s1", type := "code_generation",
        parameters := { filePath := some "/etc/passwd" } }
      { workspaceRoot := some "/home/u/proj" }).safe = false ∧
    (validateStep
      { id := "s1", type := "code_generation",
        parameters := { filePath := some "/etc/passwd" } }
      { workspaceRoot := some "/home/u/proj" }).reason
      = some ("Operation outside workspace boundary: " ++ "/etc/passwd") :=
  c9_workspace_boundary_blocks _ _ "/home/u/proj" "/etc/passwd" rfl (by decide) rfl
    (by decide) (by decide)

open SafetyValidator in
/-- C8: a `file_operation` whose path contains a sensitive entry is blocked
when the operation is `delete` or `replace`; a `create` on a non-sensitive
path inside the workspace root is safe. -/
theorem c8_sensitive_file_policy :
    (∀ (step : TaskStep) (context : TaskContext) (fp op : String),
        step.type = "file_operation" →
        step.parameters.filePath = some fp →
        step.parameters.operation = some op →
        (op = "delete" ∨ op = "replace") →
        (∃ sf ∈ sensitiveFiles, strIncludes fp sf = true) →
        (validateStep step context).safe = false) ∧
    (∀ (step : TaskStep) (context : TaskContext) (wr fp : String),
        step.type = "file_operation" →
        context.workspaceRoot = some wr →
        step.parameters.filePath = some fp →
        step.parameters.operation = some "create" →
        (∀ sf ∈ sensitiveFiles, strIncludes fp sf = false) →
        strStartsWith fp wr = true →
        (validateStep step context).safe = true) := by
  constructor
  · intro step context fp op hty hfp hop hopdr hsens
    obtain ⟨sf, hsf, hin⟩ := hsens
    have hany : (sensitiveFiles.any fun sensitive => strIncludes fp sensitive) = true :=
      List.any_eq_true.mpr ⟨sf, hsf, hin⟩
    rw [validateStep_safe_eq]
    exact checkWorkspaceBoundary_safe_false _ _ _
      (checkSensitiveFile_fires step _ fp op hty hfp hop hopdr hany).1
  · intro step context wr fp hty hwr hfp hop _hns hpre
    rw [validateStep_safe_eq,
        checkWorkspaceBoundary_noop _ _ _
          (Or.inr (Or.inr (by rw [hfp, jsOr_some_empty, hwr, Option.getD_some]; exact hpre))),
        checkSensitiveFile_noop _ _ (by rw [hop, jsOr_some_empty]; simp),
        checkDangerousCommand_skip _ _ (by simp [hty])]

open SafetyValidator in
/-- Witness for C8: `<workspaceRoot>/.env` with `replace` is blocked; a
`create` of a fresh source file inside the workspace is allowed. -/
theorem c8_sensitive_file_policy_witness :
    (validateStep
      { id := "s1", type := "file_operation",
        parameters := { filePath := some "/home/u/proj/.env", operation := some "replace" } }
      { workspaceRoot := some "/home/u/proj" }).safe = false ∧
    (validateStep
      { id := "s2", type := "file_operation",
        parameters := { filePath := some "/home/u/proj/src/new.ts", operation := some "create" } }
      { workspaceRoot := some "/home/u/proj" }).safe = true :=
  ⟨c8_sensitive_file_policy.1 _ _ "/home/u/proj/.env" "replace" rfl rfl rfl
      (Or.inr rfl) ⟨".env", by decide, by decide⟩,
   c8_sensitive_file_policy.2 _ _ "/home/u/proj" "/home/u/proj/src/new.ts" rfl rfl rfl rfl
      (by decide) (by decide)⟩

open SafetyValidator in
/-- C7 counterexample: a terminal command containing `rm -rf` whose step also
carries an out-of-workspace `filePath` parameter is blocked, but the final
reason is the boundary message, which does not name the dangerous command —
the boundary block overwrites the dangerous-command reason. -/
theorem c7_counterexample :
    (validateStep
      { id := "s1", type := "terminal_command",
        parameters := { command := some "rm -rf /tmp/x", filePath := some "/etc/x" } }
      { workspaceRoot := some "/home/u/proj" }).safe = false ∧
    (validateStep
      { id := "s1", type := "terminal_command",
        parameters := { command := some "rm -rf /tmp/x", filePath := some "/etc/x" } }
      { workspaceRoot := some "/home/u/proj" }).reason
      = some "Operation outside workspace boundary: /etc/x" ∧
    strIncludes "Operation outside workspace boundary: /etc/x" "rm -rf /tmp/x" = false := by
  decide

open SafetyValidator in
/-- C7 (amended): a `terminal_command` whose command contains a
dangerous-operation entry always gets `safe = false`; the reason names the
command unless the workspace-boundary block also fires (out-of-root
`filePath` parameter on the same step), in which case the boundary reason
overwrites it. -/
theorem c7_dangerous_command_blocks (step : TaskStep) (context : TaskContext) (c op : String)
    (hty : step.type = "terminal_command")
    (hc : step.parameters.command = some c)
    (hmem : op ∈ dangerousOperations)
    (hin : strIncludes c op = true) :
    (validateStep step context).safe = false ∧
    ((jsTruthy context.workspaceRoot = false
      ∨ jsOr step.parameters.filePath "" = ""
      ∨ strStartsWith (jsOr step.parameters.filePath "") (context.workspaceRoot.getD "") = true) →
     (validateStep step context).reason = some ("Dangerous command detected: " ++ c)) := by
  have hfix := dangerousOperations_lower_fixed op hmem
  have hlow := strIncludes_strToLower c op hfix hin
  have hany : (dangerousOperations.any fun o => strIncludes (strToLower c) o) = true :=
    List.any_eq_true.mpr ⟨op, hmem, hlow⟩
  have hfire := checkDangerousCommand_fires step { safe := true } c hty hc hany
  refine ⟨?_, ?_⟩
  · rw [validateStep_safe_eq]
    exact checkWorkspaceBoundary_safe_false _ _ _
      (checkSensitiveFile_safe_false _ _ hfire.1)
  · intro hnb
    rw [validateStep_reason_eq, checkWorkspaceBoundary_noop _ _ _ hnb,
        checkSensitiveFile_skip_type _ _ (by simp [hty])]
    exact hfire.2

open SafetyValidator in
/-- Witness for C7 (amended): the spec's example command `rm -rf /tmp/x`,
with no `filePath` parameter, yields the dangerous-command reason. -/
theorem c7_dangerous_command_blocks_witness :
    (validateStep
      { id := "s1", type := "terminal_command",
        parameters := { command := some "rm -rf /tmp/x" } }
      { workspaceRoot := some "/home/u/proj" }).safe = false ∧
    ((jsTruthy ({ workspaceRoot := some "/home/u/proj" } : TaskContext).workspaceRoot = false
      ∨ jsOr ({ command := some "rm -rf /tmp/x" } : StepParams).filePath "" = ""
      ∨ strStartsWith (jsOr ({ command := some "rm -rf /tmp/x" } : StepParams).filePath "")
          (({ workspaceRoot := some "/home/u/proj" } : TaskContext).workspaceRoot.getD "") = true) →
     (validateStep
      { id := "s1", type := "terminal_command",
        parameters := { command := some "rm -rf /tmp/x" } }
      { workspaceRoot := some "/home/u/proj" }).reason
      = some ("Dangerous command detected: " ++ "rm -rf /tmp/x")) :=
  c7_dangerous_command_blocks
    { id := "s1", type := "terminal_command",
      parameters := { command := some "rm -rf /tmp/x" } }
    { workspaceRoot := some "/home/u/proj" }
    "rm -rf /tmp/x" "rm -rf" rfl rfl (by decide) (by decide)

open SafetyValidator in
/-- C10 counterexample: with no workspace root at all, a `file_operation`
deleting `config.json` is still blocked by the sensitive-file check, so
"no workspaceRoot implies safe = true" is false. -/
theorem c10_counterexample :
    (validateStep
      { id := "s1", type := "file_operation",
        parameters := { operation := some "delete", filePath := some "config.json" } }
      {}).safe = false ∧
    (validateStep
      { id := "s1", type := "file_operation",
        parameters := { operation := some "delete", filePath := some "config.json" } }
      {}).reason = some "Attempting to modify sensitive file: config.json" := by
  decide

open SafetyValidator CodeExecutor in
/-- C10 (amended): a `file_operation` with no `filePath` parameter is always
`safe = true` (the sensitive-file and boundary checks only examine
`parameters.filePath`), even though the executor then resolves the operation
to the context's current file; and with no workspace root the boundary check
is skipped, so such a step is safe whenever the sensitive-file condition
does not fire — but the sensitive-file check still applies. -/
theorem c10_validator_blind_spots :
    (∀ (step : TaskStep) (context : TaskContext),
        step.type = "file_operation" →
        step.parameters.filePath = none →
        (validateStep step context).safe = true) ∧
    (∀ (params : StepParams) (context : TaskContext) (promptAnswer : Option String)
        (cf : String),
        params.filePath = none →
        context.currentFile = some cf →
        ¬ cf = "" →
        resolveFilePath params context promptAnswer = some cf) ∧
    (∀ (step : TaskStep) (context : TaskContext),
        context.workspaceRoot = none →
        step.type = "file_operation" →
        ¬ ((sensitiveFiles.any
              (fun sensitive => strIncludes (jsOr step.parameters.filePath "") sensitive)) = true
           ∧ (jsOr step.parameters.operation "" = "delete"
              ∨ jsOr step.parameters.operation "" = "replace")) →
        (validateStep step context).safe = true) := by
  refine ⟨?_, ?_, ?_⟩
  · intro step context hty hfp
    rw [validateStep_safe_eq,
        checkWorkspaceBoundary_noop _ _ _ (Or.inr (Or.inl (by rw [hfp]; rfl))),
        checkSensitiveFile_noop _ _ (fun hcon => absurd hcon.1 (by rw [hfp]; decide)),
        checkDangerousCommand_skip _ _ (by simp [hty])]
  · intro params context promptAnswer cf hfp hcf hne
    simp [resolveFilePath, hfp, hcf, jsTruthy, hne]
  · intro step context hroot hty hnos
    rw [validateStep_safe_eq,
        checkWorkspaceBoundary_noop _ _ _ (Or.inl (by rw [hroot]; rfl)),
        checkSensitiveFile_noop _ _ hnos,
        checkDangerousCommand_skip _ _ (by simp [hty])]

open SafetyValidator CodeExecutor in
/-- Witness for C10 (amended): a pathless `delete` passes the validator while
the executor resolves it to the context's current file. -/
theorem c10_validator_blind_spots_witness :
    (validateStep
      { id := "s1", type := "file_operation", parameters := { operation := some "delete" } }
      { workspaceRoot := some "/home/u/proj",
        currentFile := some "/home/u/proj/src/main.ts" }).safe = true ∧
    resolveFilePath { operation := some "delete" }
      { workspaceRoot := some "/home/u/proj",
        currentFile := some "/home/u/proj/src/main.ts" } none
      = some "/home/u/proj/src/main.ts" :=
  ⟨c10_validator_blind_spots.1 _ _ rfl rfl,
   c10_validator_blind_spots.2.1 _ _ none "/home/u/proj/src/main.ts" rfl rfl (by decide)⟩

/-- C3 counterexample: an LLM response whose parsed plan has an EMPTY `steps`
array does not fall back to the default plan — `createPlan` returns the
empty plan with the response's own duration. -/
theorem c3_counterexample :
    (TaskPlanner.createPlan .refactor
      { code := some "const x = 1", filePath := some "/w/a.ts" }
      { workspaceRoot := some "/w", language := some "typescript" }
      (.ok (.parsed (some []) (some 100)))).steps = [] ∧
    (TaskPlanner.createPlan .refactor
      { code := some "const x = 1", filePath := some "/w/a.ts" }
      { workspaceRoot := some "/w", language := some "typescript" }
      (.ok (.parsed (some []) (some 100)))).estimatedDuration = 100 ∧
    (TaskPlanner.createDefaultPlan .refactor
      { code := some "const x = 1", filePath := some "/w/a.ts" }
      { workspaceRoot := some "/w", language := some "typescript" }).steps.length = 3 ∧
    ¬ (TaskPlanner.createPlan .refactor
        { code := some "const x = 1", filePath := some "/w/a.ts" }
        { workspaceRoot := some "/w", language := some "typescript" }
        (.ok (.parsed (some []) (some 100)))
       = TaskPlanner.createDefaultPlan .refactor
          { code := some "const x = 1", filePath := some "/w/a.ts" }
          { workspaceRoot := some "/w", language := some "typescript" }) := by
  refine ⟨rfl, rfl, rfl, fun h => ?_⟩
  exact absurd (congrArg (fun p => p.steps.length) h) (by decide)

set_option maxRecDepth 8000 in
/-- C3 (amended): `createPlan` returns the fixed default plan — whose
`estimatedDuration` is 60 times its step count — when the LLM call throws,
when the response holds no parsable JSON object, or when the parsed object's
`steps` field is missing or not an array; an empty `steps` array, however,
parses successfully and yields the empty plan, not the default. -/
theorem c3_default_plan_fallback (ty : TaskType) (params : TaskParams)
    (context : TaskContext) (e : String) (ed : Option Nat) :
    TaskPlanner.createPlan ty params context (.error e)
      = TaskPlanner.createDefaultPlan ty params context ∧
    TaskPlanner.createPlan ty params context (.ok .noJson)
      = TaskPlanner.createDefaultPlan ty params context ∧
    TaskPlanner.createPlan ty params context (.ok (.parsed none ed))
      = TaskPlanner.createDefaultPlan ty params context ∧
    (TaskPlanner.createDefaultPlan ty params context).estimatedDuration
      = 60 * (TaskPlanner.createDefaultPlan ty params context).steps.length ∧
    TaskPlanner.createPlan ty params context (.ok (.parsed (some []) ed))
      = { steps := [],
          estimatedDuration :=
            match ed with
            | some d => if d = 0 then 300 else d
            | none => 300 } := by
  refine ⟨rfl, rfl, rfl, ?_, rfl⟩
  cases ty <;> rfl

namespace CodeCompanionManager

theorem tail_append_singleton {α : Type} (l : List α) (e : α) (h : l ≠ []) :
    (l ++ [e]).tail = l.tail ++ [e] := by
  cases l with
  | nil => exact absurd rfl h
  | cons a as => rfl

theorem pushToHistory_small (h : List TaskResult) (r : TaskResult)
    (hle : h.length + 1 ≤ 50) : pushToHistory h r = h ++ [r] := by
  simp only [pushToHistory]
  rw [if_neg (by simp only [List.length_append, List.length_cons, List.length_nil]; omega)]

theorem pushToHistory_full (h : List TaskResult) (r : TaskResult)
    (h50 : h.length = 50) : pushToHistory h r = h.tail ++ [r] := by
  simp only [pushToHistory]
  rw [if_pos (by simp [h50]), tail_append_singleton]
  intro hnil
  rw [hnil] at h50
  exact absurd h50 (by decide)

theorem foldl_pushToHistory_small (rs : List TaskResult) :
    ∀ acc : List TaskResult, acc.length + rs.length ≤ 50 →
      List.foldl pushToHistory acc rs = acc ++ rs := by
  induction rs with
  | nil => intro acc _; simp
  | cons r rs ih =>
      intro acc hlen
      rw [List.foldl_cons,
          pushToHistory_small acc r (by simp at hlen; omega),
          ih (acc ++ [r]) (by simp at hlen ⊢; omega)]
      simp

theorem mem_pushToHistory_self (h : List TaskResult) (r : TaskResult) :
    r ∈ pushToHistory h r := by
  simp only [pushToHistory]
  split
  · next hgt =>
      rw [tail_append_singleton]
      · exact List.mem_append_right _ (List.mem_singleton.mpr rfl)
      · intro hnil
        rw [hnil] at hgt
        simp at hgt
  · exact List.mem_append_right _ (List.mem_singleton.mpr rfl)

theorem mem_pushToHistory_elim (h : List TaskResult) (r x : TaskResult)
    (hx : x ∈ pushToHistory h r) : x ∈ h ∨ x = r := by
  simp only [pushToHistory] at hx
  have hx' : x ∈ h ++ [r] := by
    revert hx
    split
    · intro hx; exact List.tail_subset _ hx
    · intro hx; exact hx
  rcases List.mem_append.mp hx' with h1 | h1
  · exact Or.inl h1
  · exact Or.inr (List.mem_singleton.mp h1)

theorem find?_filtered_id (l : List (String × Task)) (taskId : String) :
    (l.filter (fun p => ¬ p.1 = taskId)).find? (fun p => p.1 = taskId) = none := by
  induction l with
  | nil => rfl
  | cons a as ih =>
      by_cases h : a.1 = taskId
      · simpa [List.filter, h] using ih
      · simpa [List.filter, List.find?, h] using ih

theorem getTaskById_deleteActive (s : ManagerState) (taskId : String) :
    getTaskById (deleteActive s taskId) taskId = none := by
  simp [getTaskById, deleteActive, find?_filtered_id]

theorem execLoop_cons_cancel (env : LoopEnv) (context : TaskContext) (i : Nat)
    (step : TaskStep) (rest : List TaskStep) (ha : env.activeAt i = false) :
    execLoop env context i (step :: rest) =
      { steps := step :: rest, results := [],
        error := some "Task cancelled by user", events := [] } := by
  simp only [execLoop]
  rw [if_neg (by simp [ha])]

theorem execLoop_cons_ok (env : LoopEnv) (context : TaskContext) (i : Nat)
    (step : TaskStep) (rest : List TaskStep) (r : String)
    (ha : env.activeAt i = true)
    (hs : (SafetyValidator.validateStep (markRunning step) context).safe = true)
    (he : env.execAt i = .success r) :
    execLoop env context i (step :: rest) =
      { steps := completeWith r step :: (execLoop env context (i + 1) rest).steps,
        results := r :: (execLoop env context (i + 1) rest).results,
        error := (execLoop env context (i + 1) rest).error,
        events := .setRunning i :: .setCompleted i
                    :: (execLoop env context (i + 1) rest).events } := by
  simp only [execLoop]
  rw [if_pos ha, if_pos hs, he]

theorem execLoop_cons_blocked (env : LoopEnv) (context : TaskContext) (i : Nat)
    (step : TaskStep) (rest : List TaskStep)
    (ha : env.activeAt i = true)
    (hs : (SafetyValidator.validateStep (markRunning step) context).safe = false) :
    execLoop env context i (step :: rest) =
      { steps := failWith ("Safety validation failed: "
                   ++ (SafetyValidator.validateStep (markRunning step) context).reason.getD "undefined")
                   step :: rest,
        results := [],
        error := some ("Safety validation failed: "
                   ++ (SafetyValidator.validateStep (markRunning step) context).reason.getD "undefined"),
        events := [.setRunning i, .setFailed i] } := by
  simp only [execLoop]
  rw [if_pos ha, if_neg (by simp [hs])]

theorem execLoop_cons_execfail (env : LoopEnv) (context : TaskContext) (i : Nat)
    (step : TaskStep) (rest : List TaskStep) (m : String)
    (ha : env.activeAt i = true)
    (hs : (SafetyValidator.validateStep (markRunning step) context).safe = true)
    (he : env.execAt i = .failure m) :
    execLoop env context i (step :: rest) =
      { steps := failWith m step :: rest, results := [], error := some m,
        events := [.setRunning i, .setFailed i] } := by
  simp only [execLoop]
  rw [if_pos ha, if_pos hs, he]

theorem customLoop_cons_cancel (env : LoopEnv) (context : TaskContext) (i : Nat)
    (step : TaskStep) (rest : List TaskStep) (ha : env.activeAt i = false) :
    customLoop env context i (step :: rest) =
      { steps := step :: rest, results := [],
        error := some "Task cancelled by user", events := [] } := by
  simp only [customLoop]
  rw [if_neg (by simp [ha])]

theorem customLoop_cons_ok (env : LoopEnv) (context : TaskContext) (i : Nat)
    (step : TaskStep) (rest : List TaskStep) (r : String)
    (ha : env.activeAt i = true)
    (hs : (SafetyValidator.validateStep (markRunning step) context).safe = true)
    (he : env.execAt i = .success r) :
    customLoop env context i (step :: rest) =
      { steps := completeWith r step :: (customLoop env context (i + 1) rest).steps,
        results := r :: (customLoop env context (i + 1) rest).results,
        error := (customLoop env context (i + 1) rest).error,
        events := .setRunning i :: .setCompleted i
                    :: (customLoop env context (i + 1) rest).events } := by
  simp only [customLoop]
  rw [if_pos ha, if_pos hs, he]

theorem customLoop_cons_blocked (env : LoopEnv) (context : TaskContext) (i : Nat)
    (step : TaskStep) (rest : List TaskStep)
    (ha : env.activeAt i = true)
    (hs : (SafetyValidator.validateStep (markRunning step) context).safe = false) :
    customLoop env context i (step :: rest) =
      { steps := markRunning step :: rest,
        results := [],
        error := some ("Safety validation failed: "
                   ++ (SafetyValidator.validateStep (markRunning step) context).reason.getD "undefined"),
        events := [.setRunning i] } := by
  simp only [customLoop]
  rw [if_pos ha, if_neg (by simp [hs])]

theorem customLoop_cons_execfail (env : LoopEnv) (context : TaskContext) (i : Nat)
    (step : TaskStep) (rest : List TaskStep) (m : String)
    (ha : env.activeAt i = true)
    (hs : (SafetyValidator.validateStep (markRunning step) context).safe = true)
    (he : env.execAt i = .failure m) :
    customLoop env context i (step :: rest) =
      { steps := failWith m step :: rest, results := [], error := some m,
        events := [.setRunning i, .setFailed i] } := by
  simp only [customLoop]
  rw [if_pos ha, if_pos hs, he]

/-- A prefix of steps that all pass the safety gate and execute successfully
is consumed compositionally: the loop completes the prefix, collects its
results in order, and continues at the shifted index. -/
theorem execLoop_append (env : LoopEnv) (context : TaskContext) (resFn : Nat → String) :
    ∀ (pre : List TaskStep) (i : Nat) (rest : List TaskStep),
      (∀ j, j < pre.length → env.activeAt (i + j) = true) →
      (∀ j (hj : j < pre.length),
        (SafetyValidator.validateStep (markRunning (pre.get ⟨j, hj⟩)) context).safe = true) →
      (∀ j, j < pre.length → env.execAt (i + j) = .success (resFn (i + j))) →
      execLoop env context i (pre ++ rest) =
        { steps := completeFrom resFn i pre
                     ++ (execLoop env context (i + pre.length) rest).steps,
          results := resultsFrom resFn i pre.length
                       ++ (execLoop env context (i + pre.length) rest).results,
          error := (execLoop env context (i + pre.length) rest).error,
          events := eventsFrom i pre.length
                      ++ (execLoop env context (i + pre.length) rest).events } := by
  intro pre
  induction pre with
  | nil =>
      intro i rest _ _ _
      simp [completeFrom, resultsFrom, eventsFrom]
  | cons s pre ih =>
      intro i rest hact hsafe hexec
      have ha : env.activeAt i = true := by simpa using hact 0 (by simp)
      have hs : (SafetyValidator.validateStep (markRunning s) context).safe = true := by
        simpa using hsafe 0 (by simp)
      have he : env.execAt i = .success (resFn i) := by simpa using hexec 0 (by simp)
      have heq : i + (pre.length + 1) = i + 1 + pre.length := by omega
      rw [List.cons_append, execLoop_cons_ok env context i s (pre ++ rest) (resFn i) ha hs he,
          ih (i + 1) rest
            (fun j hj => by
              have := hact (j + 1) (by simpa using Nat.succ_lt_succ hj)
              rwa [show i + (j + 1) = i + 1 + j from by omega] at this)
            (fun j hj => hsafe (j + 1) (by simpa using Nat.succ_lt_succ hj))
            (fun j hj => by
              have := hexec (j + 1) (by simpa using Nat.succ_lt_succ hj)
              rwa [show i + (j + 1) = i + 1 + j from by omega] at this)]
      simp only [completeFrom, resultsFrom, eventsFrom, List.length_cons, heq,
        List.cons_append]

/-- The `customLoop` version of `execLoop_append`. -/
theorem customLoop_append (env : LoopEnv) (context : TaskContext) (resFn : Nat → String) :
    ∀ (pre : List TaskStep) (i : Nat) (rest : List TaskStep),
      (∀ j, j < pre.length → env.activeAt (i + j) = true) →
      (∀ j (hj : j < pre.length),
        (SafetyValidator.validateStep (markRunning (pre.get ⟨j, hj⟩)) context).safe = true) →
      (∀ j, j < pre.length → env.execAt (i + j) = .success (resFn (i + j))) →
      customLoop env context i (pre ++ rest) =
        { steps := completeFrom resFn i pre
                     ++ (customLoop env context (i + pre.length) rest).steps,
          results := resultsFrom resFn i pre.length
                       ++ (customLoop env context (i + pre.length) rest).results,
          error := (customLoop env context (i + pre.length) rest).error,
          events := eventsFrom i pre.length
                      ++ (customLoop env context (i + pre.length) rest).events } := by
  intro pre
  induction pre with
  | nil =>
      intro i rest _ _ _
      simp [completeFrom, resultsFrom, eventsFrom]
  | cons s pre ih =>
      intro i rest hact hsafe hexec
      have ha : env.activeAt i = true := by simpa using hact 0 (by simp)
      have hs : (SafetyValidator.validateStep (markRunning s) context).safe = true := by
        simpa using hsafe 0 (by simp)
      have he : env.execAt i = .success (resFn i) := by simpa using hexec 0 (by simp)
      have heq : i + (pre.length + 1) = i + 1 + pre.length := by omega
      rw [List.cons_append, customLoop_cons_ok env context i s (pre ++ rest) (resFn i) ha hs he,
          ih (i + 1) rest
            (fun j hj => by
              have := hact (j + 1) (by simpa using Nat.succ_lt_succ hj)
              rwa [show i + (j + 1) = i + 1 + j from by omega] at this)
            (fun j hj => hsafe (j + 1) (by simpa using Nat.succ_lt_succ hj))
            (fun j hj => by
              have := hexec (j + 1) (by simpa using Nat.succ_lt_succ hj)
              rwa [show i + (j + 1) = i + 1 + j from by omega] at this)]
      simp only [completeFrom, resultsFrom, eventsFrom, List.length_cons, heq,
        List.cons_append]

/-- Every event the `executeTask` loop emits from index `i` concerns a step
at index `i` or later. -/
theorem execLoop_events_ge (env : LoopEnv) (context : TaskContext) :
    ∀ (steps : List TaskStep) (i : Nat),
      ∀ e ∈ (execLoop env context i steps).events, i ≤ e.idx := by
  intro steps
  induction steps with
  | nil => intro i e he; simp [execLoop] at he
  | cons s rest ih =>
      intro i e he
      by_cases ha : env.activeAt i = true
      · by_cases hs : (SafetyValidator.validateStep (markRunning s) context).safe = true
        · cases hexec : env.execAt i with
          | success r =>
              rw [execLoop_cons_ok env context i s rest r ha hs hexec] at he
              simp only [List.mem_cons] at he
              rcases he with rfl | rfl | he
              · exact Nat.le_refl i
              · exact Nat.le_refl i
              · exact Nat.le_of_succ_le (ih (i + 1) e he)
          | failure m =>
              rw [execLoop_cons_execfail env context i s rest m ha hs hexec] at he
              simp only [List.mem_cons, List.not_mem_nil, or_false] at he
              rcases he with rfl | rfl <;> exact Nat.le_refl i
        · rw [execLoop_cons_blocked env context i s rest ha
                (by simpa using hs)] at he
          simp only [List.mem_cons, List.not_mem_nil, or_false] at he
          rcases he with rfl | rfl <;> exact Nat.le_refl i
      · rw [execLoop_cons_cancel env context i s rest (by simpa using ha)] at he
        simp at he

/-- The `customLoop` version of `execLoop_events_ge`. -/
theorem customLoop_events_ge (env : LoopEnv) (context : TaskContext) :
    ∀ (steps : List TaskStep) (i : Nat),
      ∀ e ∈ (customLoop env context i steps).events, i ≤ e.idx := by
  intro steps
  induction steps with
  | nil => intro i e he; simp [customLoop] at he
  | cons s rest ih =>
      intro i e he
      by_cases ha : env.activeAt i = true
      · by_cases hs : (SafetyValidator.validateStep (markRunning s) context).safe = true
        · cases hexec : env.execAt i with
          | success r =>
              rw [customLoop_cons_ok env context i s rest r ha hs hexec] at he
              simp only [List.mem_cons] at he
              rcases he with rfl | rfl | he
              · exact Nat.le_refl i
              · exact Nat.le_refl i
              · exact Nat.le_of_succ_le (ih (i + 1) e he)
          | failure m =>
              rw [customLoop_cons_execfail env context i s rest m ha hs hexec] at he
              simp only [List.mem_cons, List.not_mem_nil, or_false] at he
              rcases he with rfl | rfl <;> exact Nat.le_refl i
        · rw [customLoop_cons_blocked env context i s rest ha
                (by simpa using hs)] at he
          simp only [List.mem_cons, List.not_mem_nil, or_false] at he
          subst he
          exact Nat.le_refl i
      · rw [customLoop_cons_cancel env context i s rest (by simpa using ha)] at he
        simp at he

/-- A trace whose events all concern indices at least `i` assigns nothing to
an index below `i`. -/
theorem eventsFor_eq_nil_of_lt (E : List StepEvent) (j i : Nat)
    (h : ∀ e ∈ E, i ≤ e.idx) (hj : j < i) : eventsFor E j = [] := by
  induction E with
  | nil => rfl
  | cons e E ih =>
      have he := h e (List.mem_cons_self e E)
      have hne : ¬ e.idx = j := by omega
      simp only [eventsFor, List.filter_cons]
      rw [if_neg (by simpa using hne)]
      exact ih (fun x hx => h x (List.mem_cons_of_mem e hx))

theorem eventsFor_cons_self (e : StepEvent) (E : List StepEvent) :
    eventsFor (e :: E) e.idx = e :: eventsFor E e.idx := by
  simp only [eventsFor, List.filter_cons]
  rw [if_pos (by simp)]

theorem eventsFor_cons_ne (e : StepEvent) (E : List StepEvent) (j : Nat)
    (h : ¬ e.idx = j) : eventsFor (e :: E) j = eventsFor E j := by
  simp only [eventsFor, List.filter_cons]
  rw [if_neg (by simpa using h)]

/-- Per-step status-assignment discipline of the `executeTask` loop: for any
index, the trace is empty, `running`+`completed`, or `running`+`failed`. -/
theorem execLoop_trace (env : LoopEnv) (context : TaskContext) :
    ∀ (steps : List TaskStep) (i : Nat), StepTraceOk (execLoop env context i steps).events := by
  intro steps
  induction steps with
  | nil => intro i j; left; simp [execLoop, eventsFor]
  | cons s rest ih =>
      intro i j
      by_cases ha : env.activeAt i = true
      · by_cases hs : (SafetyValidator.validateStep (markRunning s) context).safe = true
        · cases hexec : env.execAt i with
          | success r =>
              rw [execLoop_cons_ok env context i s rest r ha hs hexec]
              by_cases hj : j = i
              · subst hj
                right; right; left
                have h1 := eventsFor_cons_self (.setRunning j)
                  (.setCompleted j :: (execLoop env context (j + 1) rest).events)
                have h2 := eventsFor_cons_self (.setCompleted j)
                  ((execLoop env context (j + 1) rest).events)
                simp only [StepEvent.idx] at h1 h2
                rw [h1, h2, eventsFor_eq_nil_of_lt _ j (j + 1)
                      (execLoop_events_ge env context rest (j + 1)) (Nat.lt_succ_self j)]
              · rw [eventsFor_cons_ne _ _ _ (by simpa [StepEvent.idx] using Ne.symm hj),
                    eventsFor_cons_ne _ _ _ (by simpa [StepEvent.idx] using Ne.symm hj)]
                exact ih (i + 1) j
          | failure m =>
              rw [execLoop_cons_execfail env context i s rest m ha hs hexec]
              by_cases hj : j = i
              · subst hj
                right; right; right
                have h1 := eventsFor_cons_self (.setRunning j) [.setFailed j]
                have h2 := eventsFor_cons_self (.setFailed j) []
                simp only [StepEvent.idx] at h1 h2
                rw [h1, h2]
                rfl
              · rw [eventsFor_cons_ne _ _ _ (by simpa [StepEvent.idx] using Ne.symm hj),
                    eventsFor_cons_ne _ _ _ (by simpa [StepEvent.idx] using Ne.symm hj)]
                left; rfl
        · rw [execLoop_cons_blocked env context i s rest ha (by simpa using hs)]
          by_cases hj : j = i
          · subst hj
            right; right; right
            have h1 := eventsFor_cons_self (.setRunning j) [.setFailed j]
            have h2 := eventsFor_cons_self (.setFailed j) []
            simp only [StepEvent.idx] at h1 h2
            rw [h1, h2]
            rfl
          · rw [eventsFor_cons_ne _ _ _ (by simpa [StepEvent.idx] using Ne.symm hj),
                eventsFor_cons_ne _ _ _ (by simpa [StepEvent.idx] using Ne.symm hj)]
            left; rfl
      · rw [execLoop_cons_cancel env context i s rest (by simpa using ha)]
        left; rfl

/-- Per-step status-assignment discipline of the `runCustomPlan` loop: for
any index, the trace is empty, `running` alone (the safety-abort case),
`running`+`completed`, or `running`+`failed`. -/
theorem customLoop_trace (env : LoopEnv) (context : TaskContext) :
    ∀ (steps : List TaskStep) (i : Nat), StepTraceOk (customLoop env context i steps).events := by
  intro steps
  induction steps with
  | nil => intro i j; left; simp [customLoop, eventsFor]
  | cons s rest ih =>
      intro i j
      by_cases ha : env.activeAt i = true
      · by_cases hs : (SafetyValidator.validateStep (markRunning s) context).safe = true
        · cases hexec : env.execAt i with
          | success r =>
              rw [customLoop_cons_ok env context i s rest r ha hs hexec]
              by_cases hj : j = i
              · subst hj
                right; right; left
                have h1 := eventsFor_cons_self (.setRunning j)
                  (.setCompleted j :: (customLoop env context (j + 1) rest).events)
                have h2 := eventsFor_cons_self (.setCompleted j)
                  ((customLoop env context (j + 1) rest).events)
                simp only [StepEvent.idx] at h1 h2
                rw [h1, h2, eventsFor_eq_nil_of_lt _ j (j + 1)
                      (customLoop_events_ge env context rest (j + 1)) (Nat.lt_succ_self j)]
              · rw [eventsFor_cons_ne _ _ _ (by simpa [StepEvent.idx] using Ne.symm hj),
                    eventsFor_cons_ne _ _ _ (by simpa [StepEvent.idx] using Ne.symm hj)]
                exact ih (i + 1) j
          | failure m =>
              rw [customLoop_cons_execfail env context i s rest m ha hs hexec]
              by_cases hj : j = i
              · subst hj
                right; right; right
                have h1 := eventsFor_cons_self (.setRunning j) [.setFailed j]
                have h2 := eventsFor_cons_self (.setFailed j) []
                simp only [StepEvent.idx] at h1 h2
                rw [h1, h2]
                rfl
              · rw [eventsFor_cons_ne _ _ _ (by simpa [StepEvent.idx] using Ne.symm hj),
                    eventsFor_cons_ne _ _ _ (by simpa [StepEvent.idx] using Ne.symm hj)]
                left; rfl
        · rw [customLoop_cons_blocked env context i s rest ha (by simpa using hs)]
          by_cases hj : j = i
          · subst hj
            right; left
            have h1 := eventsFor_cons_self (.setRunning j) []
            simp only [StepEvent.idx] at h1
            rw [h1]
            rfl
          · rw [eventsFor_cons_ne _ _ _ (by simpa [StepEvent.idx] using Ne.symm hj)]
            left; rfl
      · rw [customLoop_cons_cancel env context i s rest (by simpa using ha)]
        left; rfl

end CodeCompanionManager

namespace TaskPlanner

theorem stepsFromParsed_pending :
    ∀ (i : Nat) (ps : List ParsedStep), ∀ s ∈ stepsFromParsed i ps, s.status = .pending := by
  intro i ps
  induction ps generalizing i with
  | nil => intro s hs; simp [stepsFromParsed] at hs
  | cons p ps ih =>
      intro s hs
      simp only [stepsFromParsed, List.mem_cons] at hs
      rcases hs with rfl | hs
      · rfl
      · exact ih (i + 1) s hs

theorem createDefaultPlan_pending (ty : TaskType) (params : TaskParams)
    (context : TaskContext) :
    ∀ s ∈ (createDefaultPlan ty params context).steps, s.status = .pending := by
  cases ty <;> intro s hs <;> fin_cases hs <;> rfl

theorem createPlan_pending (ty : TaskType) (params : TaskParams)
    (context : TaskContext) (outcome : Except String PlanResponse) :
    ∀ s ∈ (createPlan ty params context outcome).steps, s.status = .pending := by
  cases outcome with
  | error e => exact createDefaultPlan_pending ty params context
  | ok resp =>
      cases resp with
      | noJson => exact createDefaultPlan_pending ty params context
      | parsed stepsField ed =>
          cases stepsField with
          | none => exact createDefaultPlan_pending ty params context
          | some ps => exact fun s hs => stepsFromParsed_pending 0 ps s hs

end TaskPlanner

open CodeCompanionManager in
/-- C5 counterexample: `runCustomPlan` accepts externally supplied steps
(the chat panel's edit-plan flow passes a previous `TaskResult`'s steps,
whose statuses are already `completed`), and its loop re-marks such a step
`running` — an assignment of strictly lower rank than the step's current
`completed` status, a regression in the claimed order. -/
theorem c5_counterexample :
    ({ id := "s1", status := .completed } : TaskStep).status = .completed ∧
    (customLoop { activeAt := fun _ => true, execAt := fun _ => .success "ok" } {} 0
        [{ id := "s1", status := .completed }]).events
      = [.setRunning 0, .setCompleted 0] ∧
    statusRank .running < statusRank .completed := by
  decide

open CodeCompanionManager in
/-- C5 (amended): in the step loops of `executeTask` and `runCustomPlan`,
every step's status assignments form one of the traces allowed by the order
`pending < running < (completed or failed)` — never a terminal status
without `running` first — and every plan the planner returns (parsed or
default) starts all steps at `pending`, so steps of `executeTask` runs never
regress; `runCustomPlan`, however, applies the same assignments to whatever
statuses the supplied steps already carry, so a recycled already-`completed`
step is re-marked `running` (see the counterexample). -/
theorem c5_step_status_monotone :
    (∀ (env : LoopEnv) (context : TaskContext) (steps : List TaskStep),
        StepTraceOk (execLoop env context 0 steps).events) ∧
    (∀ (env : LoopEnv) (context : TaskContext) (steps : List TaskStep),
        StepTraceOk (customLoop env context 0 steps).events) ∧
    (∀ (ty : TaskType) (params : TaskParams) (context : TaskContext)
        (outcome : Except String TaskPlanner.PlanResponse),
        ∀ s ∈ (TaskPlanner.createPlan ty params context outcome).steps,
          s.status = .pending) :=
  ⟨fun env context steps => execLoop_trace env context steps 0,
   fun env context steps => customLoop_trace env context steps 0,
   fun ty params context outcome => TaskPlanner.createPlan_pending ty params context outcome⟩

open CodeCompanionManager in
/-- Witness for C5: a concrete two-step run (one success, one executor
failure) has the `running`-then-terminal trace at both indices. -/
theorem c5_step_status_monotone_witness :
    eventsFor
      (execLoop
        { activeAt := fun _ => true,
          execAt := fun i => if i = 0 then .success "ok" else .failure "boom" }
        {} 0 [{ id := "s1" }, { id := "s2" }]).events 0
      = [.setRunning 0, .setCompleted 0] ∧
    (eventsFor
      (execLoop
        { activeAt := fun _ => true,
          execAt := fun i => if i = 0 then .success "ok" else .failure "boom" }
        {} 0 [{ id := "s1" }, { id := "s2" }]).events 1
      = [] ∨
     eventsFor
      (execLoop
        { activeAt := fun _ => true,
          execAt := fun i => if i = 0 then .success "ok" else .failure "boom" }
        {} 0 [{ id := "s1" }, { id := "s2" }]).events 1
      = [.setRunning 1] ∨
     eventsFor
      (execLoop
        { activeAt := fun _ => true,
          execAt := fun i => if i = 0 then .success "ok" else .failure "boom" }
        {} 0 [{ id := "s1" }, { id := "s2" }]).events 1
      = [.setRunning 1, .setCompleted 1] ∨
     eventsFor
      (execLoop
        { activeAt := fun _ => true,
          execAt := fun i => if i = 0 then .success "ok" else .failure "boom" }
        {} 0 [{ id := "s1" }, { id := "s2" }]).events 1
      = [.setRunning 1, .setFailed 1]) :=
  ⟨by decide,
   c5_step_status_monotone.1
     { activeAt := fun _ => true,
       execAt := fun i => if i = 0 then .success "ok" else .failure "boom" }
     {} [{ id := "s1" }, { id := "s2" }] 1⟩

namespace CodeCompanionManager

theorem completeFrom_length (resFn : Nat → String) :
    ∀ (i : Nat) (l : List TaskStep), (completeFrom resFn i l).length = l.length := by
  intro i l
  induction l generalizing i with
  | nil => rfl
  | cons s l ih => simp [completeFrom, ih]

end CodeCompanionManager

open CodeCompanionManager SafetyValidator in
/-- C1 counterexample: a five-step task whose executor always succeeds,
cancelled before iteration 2 (steps are 0-indexed): steps 1-2 keep
`completed` and their results, steps 3-5 stay `pending`, but the final task
status is `failed`, not `cancelled` — the `executeTask` failure handler
overwrites the status `cancelTask` set. -/
theorem c1_counterexample :
    (executeTaskRun
      { activeAt := fun i => decide (i < 2), execAt := fun _ => .success "ok" }
      "task_1" .implement {} {}
      [{ id := "s1" }, { id := "s2" }, { id := "s3" }, { id := "s4" }, { id := "s5" }]
      300).1.status = .failed ∧
    ¬ (executeTaskRun
      { activeAt := fun i => decide (i < 2), execAt := fun _ => .success "ok" }
      "task_1" .implement {} {}
      [{ id := "s1" }, { id := "s2" }, { id := "s3" }, { id := "s4" }, { id := "s5" }]
      300).1.status = .cancelled ∧
    ((executeTaskRun
      { activeAt := fun i => decide (i < 2), execAt := fun _ => .success "ok" }
      "task_1" .implement {} {}
      [{ id := "s1" }, { id := "s2" }, { id := "s3" }, { id := "s4" }, { id := "s5" }]
      300).1.steps.map (fun s => s.status))
      = [.completed, .completed, .pending, .pending, .pending] ∧
    ((executeTaskRun
      { activeAt := fun i => decide (i < 2), execAt := fun _ => .success "ok" }
      "task_1" .implement {} {}
      [{ id := "s1" }, { id := "s2" }, { id := "s3" }, { id := "s4" }, { id := "s5" }]
      300).1.steps.map (fun s => s.result))
      = [some "ok", some "ok", none, none, none] ∧
    (executeTaskRun
      { activeAt := fun i => decide (i < 2), execAt := fun _ => .success "ok" }
      "task_1" .implement {} {}
      [{ id := "s1" }, { id := "s2" }, { id := "s3" }, { id := "s4" }, { id := "s5" }]
      300).1.error = some "Task cancelled by user" := by
  decide

open CodeCompanionManager SafetyValidator in
/-- C1 (amended): when a task is cancelled after `pre.length` completed
iterations and before the next one, the completed steps keep status
`completed` and their stored results, the remaining steps stay untouched
(`pending` when they started so), and the task ends with error
`Task cancelled by user` — but its final status is `failed`, not
`cancelled`: `cancelTask` sets `cancelled` transiently, then `executeTask`'s
failure handler overwrites it with `failed` and records a failed
`TaskResult`. -/
theorem c1_cancel_preserves_completed_steps
    (env : LoopEnv) (taskId : String) (ty : TaskType) (params : TaskParams)
    (context : TaskContext) (estd : Nat) (resFn : Nat → String)
    (pre post : List TaskStep)
    (hpost : post ≠ [])
    (hpend : ∀ s ∈ post, s.status = .pending)
    (hact : ∀ j, j < pre.length → env.activeAt j = true)
    (hsafe : ∀ j (hj : j < pre.length),
      (validateStep (markRunning (pre.get ⟨j, hj⟩)) context).safe = true)
    (hexec : ∀ j, j < pre.length → env.execAt j = .success (resFn j))
    (hcancel : env.activeAt pre.length = false) :
    (executeTaskRun env taskId ty params context (pre ++ post) estd).1.status = .failed ∧
    ¬ (executeTaskRun env taskId ty params context (pre ++ post) estd).1.status
        = .cancelled ∧
    (executeTaskRun env taskId ty params context (pre ++ post) estd).1.error
      = some "Task cancelled by user" ∧
    (executeTaskRun env taskId ty params context (pre ++ post) estd).2.success = false ∧
    (executeTaskRun env taskId ty params context (pre ++ post) estd).2.error
      = some "Task cancelled by user" ∧
    (executeTaskRun env taskId ty params context (pre ++ post) estd).1.steps
      = completeFrom resFn 0 pre ++ post ∧
    (∀ s ∈ (executeTaskRun env taskId ty params context (pre ++ post) estd).1.steps.drop
        pre.length, s.status = .pending) := by
  cases post with
  | nil => exact absurd rfl hpost
  | cons p rest =>
      have hloop := execLoop_append env context resFn pre 0 (p :: rest)
        (fun j hj => by simpa using hact j hj)
        (fun j hj => hsafe j hj)
        (fun j hj => by simpa using hexec j hj)
      rw [execLoop_cons_cancel env context (0 + pre.length) p rest
            (by simpa using hcancel)] at hloop
      have hsteps : (executeTaskRun env taskId ty params context (pre ++ p :: rest) estd).1.steps
          = completeFrom resFn 0 pre ++ p :: rest := by
        simp [executeTaskRun, finishTask, hloop]
      refine ⟨?_, ?_, ?_, ?_, ?_, hsteps, ?_⟩
      · simp [executeTaskRun, finishTask, hloop]
      · simp [executeTaskRun, finishTask, hloop]
      · simp [executeTaskRun, finishTask, hloop]
      · simp [executeTaskRun, finishTask, hloop]
      · simp [executeTaskRun, finishTask, hloop]
      · rw [hsteps, ← completeFrom_length resFn 0 pre, List.drop_left]
        exact hpend

open CodeCompanionManager SafetyValidator in
/-- Witness for C1 (amended): two completed steps, cancellation observed at
iteration 2 of 5. -/
theorem c1_cancel_preserves_completed_steps_witness :
    (executeTaskRun
      { activeAt := fun i => decide (i < 2), execAt := fun _ => .success "ok" }
      "task_1" .implement {} {}
      ([{ id := "s1" }, { id := "s2" }] ++ [{ id := "s3" }, { id := "s4" }, { id := "s5" }])
      300).1.status = .failed ∧
    ¬ (executeTaskRun
      { activeAt := fun i => decide (i < 2), execAt := fun _ => .success "ok" }
      "task_1" .implement {} {}
      ([{ id := "s1" }, { id := "s2" }] ++ [{ id := "s3" }, { id := "s4" }, { id := "s5" }])
      300).1.status = .cancelled ∧
    (executeTaskRun
      { activeAt := fun i => decide (i < 2), execAt := fun _ => .success "ok" }
      "task_1" .implement {} {}
      ([{ id := "s1" }, { id := "s2" }] ++ [{ id := "s3" }, { id := "s4" }, { id := "s5" }])
      300).1.error = some "Task cancelled by user" ∧
    (executeTaskRun
      { activeAt := fun i => decide (i < 2), execAt := fun _ => .success "ok" }
      "task_1" .implement {} {}
      ([{ id := "s1" }, { id := "s2" }] ++ [{ id := "s3" }, { id := "s4" }, { id := "s5" }])
      300).2.success = false ∧
    (executeTaskRun
      { activeAt := fun i => decide (i < 2), execAt := fun _ => .success "ok" }
      "task_1" .implement {} {}
      ([{ id := "s1" }, { id := "s2" }] ++ [{ id := "s3" }, { id := "s4" }, { id := "s5" }])
      300).2.error = some "Task cancelled by user" ∧
    (executeTaskRun
      { activeAt := fun i => decide (i < 2), execAt := fun _ => .success "ok" }
      "task_1" .implement {} {}
      ([{ id := "s1" }, { id := "s2" }] ++ [{ id := "s3" }, { id := "s4" }, { id := "s5" }])
      300).1.steps
      = completeFrom (fun _ => "ok") 0 [{ id := "s1" }, { id := "s2" }]
        ++ [{ id := "s3" }, { id := "s4" }, { id := "s5" }] ∧
    (∀ s ∈ ((executeTaskRun
      { activeAt := fun i => decide (i < 2), execAt := fun _ => .success "ok" }
      "task_1" .implement {} {}
      ([{ id := "s1" }, { id := "s2" }] ++ [{ id := "s3" }, { id := "s4" }, { id := "s5" }])
      300).1.steps.drop
        ([({ id := "s1" } : TaskStep), { id := "s2" }]).length), s.status = .pending) :=
  c1_cancel_preserves_completed_steps
    { activeAt := fun i => decide (i < 2), execAt := fun _ => .success "ok" }
    "task_1" .implement {} {} 300 (fun _ => "ok")
    [{ id := "s1" }, { id := "s2" }] [{ id := "s3" }, { id := "s4" }, { id := "s5" }]
    (by decide)
    (by intro s hs; fin_cases hs <;> rfl)
    (by intro j hj; simp only [List.length_cons, List.length_nil] at hj
        interval_cases j <;> rfl)
    (by intro j hj; simp only [List.length_cons, List.length_nil] at hj
        interval_cases j <;> rfl)
    (by intro j hj; simp only [List.length_cons, List.length_nil] at hj
        interval_cases j <;> rfl)
    (by rfl)

open CodeCompanionManager SafetyValidator in
/-- C2 counterexample: in `runCustomPlan`, an unsafe first step (a dangerous
terminal command) aborts the task with the validation message, but the step
itself is left with status `running` and NO error attached — the safety
check sits outside the inner try, unlike in `executeTask`. -/
theorem c2_counterexample :
    ((runCustomPlanRun
      { activeAt := fun _ => true, execAt := fun _ => .success "ok" }
      "task_2" .implement {} {}
      [{ id := "u1", type := "terminal_command",
         parameters := { command := some "rm -rf /" } },
       { id := "u2" }]).1.steps.map (fun s => s.status)) = [.running, .pending] ∧
    ((runCustomPlanRun
      { activeAt := fun _ => true, execAt := fun _ => .success "ok" }
      "task_2" .implement {} {}
      [{ id := "u1", type := "terminal_command",
         parameters := { command := some "rm -rf /" } },
       { id := "u2" }]).1.steps.map (fun s => s.error)) = [none, none] ∧
    (runCustomPlanRun
      { activeAt := fun _ => true, execAt := fun _ => .success "ok" }
      "task_2" .implement {} {}
      [{ id := "u1", type := "terminal_command",
         parameters := { command := some "rm -rf /" } },
       { id := "u2" }]).1.status = .failed ∧
    (runCustomPlanRun
      { activeAt := fun _ => true, execAt := fun _ => .success "ok" }
      "task_2" .implement {} {}
      [{ id := "u1", type := "terminal_command",
         parameters := { command := some "rm -rf /" } },
       { id := "u2" }]).1.error
      = some "Safety validation failed: Dangerous command detected: rm -rf /" := by
  decide

open CodeCompanionManager SafetyValidator in
/-- C2 (amended): when `validateStep` returns `safe = false` for the step
after `pre.length` successful iterations, both loops abort: no later step is
ever executed (the post steps stay untouched and hence `pending`), and the
whole task fails with the message `Safety validation failed: <reason>`. In
`executeTask`'s loop the failing step is marked `failed` with that message
attached as its error; in `runCustomPlan`'s loop the failing step is left
with status `running` and its error unchanged (the safety check sits outside
the inner try there). -/
theorem c2_unsafe_step_failfast
    (env : LoopEnv) (taskId : String) (ty : TaskType) (params : TaskParams)
    (context : TaskContext) (estd : Nat) (resFn : Nat → String)
    (pre : List TaskStep) (sU : TaskStep) (post : List TaskStep)
    (hpend : ∀ s ∈ post, s.status = .pending)
    (hact : ∀ j, j ≤ pre.length → env.activeAt j = true)
    (hsafe : ∀ j (hj : j < pre.length),
      (validateStep (markRunning (pre.get ⟨j, hj⟩)) context).safe = true)
    (hexec : ∀ j, j < pre.length → env.execAt j = .success (resFn j))
    (hviol : (validateStep (markRunning sU) context).safe = false) :
    (executeTaskRun env taskId ty params context (pre ++ sU :: post) estd).1.steps
      = completeFrom resFn 0 pre
        ++ failWith ("Safety validation failed: "
             ++ (validateStep (markRunning sU) context).reason.getD "undefined") sU
        :: post ∧
    (executeTaskRun env taskId ty params context (pre ++ sU :: post) estd).1.status
      = .failed ∧
    (executeTaskRun env taskId ty params context (pre ++ sU :: post) estd).1.error
      = some ("Safety validation failed: "
          ++ (validateStep (markRunning sU) context).reason.getD "undefined") ∧
    (executeTaskRun env taskId ty params context (pre ++ sU :: post) estd).2.success
      = false ∧
    (executeTaskRun env taskId ty params context (pre ++ sU :: post) estd).2.error
      = some ("Safety validation failed: "
          ++ (validateStep (markRunning sU) context).reason.getD "undefined") ∧
    (failWith ("Safety validation failed: "
        ++ (validateStep (markRunning sU) context).reason.getD "undefined") sU).status
      = .failed ∧
    (failWith ("Safety validation failed: "
        ++ (validateStep (markRunning sU) context).reason.getD "undefined") sU).error
      = some ("Safety validation failed: "
          ++ (validateStep (markRunning sU) context).reason.getD "undefined") ∧
    (runCustomPlanRun env taskId ty params context (pre ++ sU :: post)).1.steps
      = completeFrom resFn 0 pre ++ markRunning sU :: post ∧
    (runCustomPlanRun env taskId ty params context (pre ++ sU :: post)).1.status
      = .failed ∧
    (runCustomPlanRun env taskId ty params context (pre ++ sU :: post)).1.error
      = some ("Safety validation failed: "
          ++ (validateStep (markRunning sU) context).reason.getD "undefined") ∧
    (runCustomPlanRun env taskId ty params context (pre ++ sU :: post)).2.success
      = false ∧
    (markRunning sU).status = .running ∧
    (markRunning sU).error = sU.error ∧
    (∀ s ∈ post, s.status = .pending) := by
  have hloopE := execLoop_append env context resFn pre 0 (sU :: post)
    (fun j hj => by simpa using hact j (Nat.le_of_lt hj))
    (fun j hj => hsafe j hj)
    (fun j hj => by simpa using hexec j hj)
  rw [execLoop_cons_blocked env context (0 + pre.length) sU post
        (by simpa using hact pre.length (Nat.le_refl _)) hviol] at hloopE
  have hloopC := customLoop_append env context resFn pre 0 (sU :: post)
    (fun j hj => by simpa using hact j (Nat.le_of_lt hj))
    (fun j hj => hsafe j hj)
    (fun j hj => by simpa using hexec j hj)
  rw [customLoop_cons_blocked env context (0 + pre.length) sU post
        (by simpa using hact pre.length (Nat.le_refl _)) hviol] at hloopC
  refine ⟨?_, ?_, ?_, ?_, ?_, rfl, rfl, ?_, ?_, ?_, ?_, rfl, rfl, hpend⟩
  · simp [executeTaskRun, finishTask, hloopE]
  · simp [executeTaskRun, finishTask, hloopE]
  · simp [executeTaskRun, finishTask, hloopE]
  · simp [executeTaskRun, finishTask, hloopE]
  · simp [executeTaskRun, finishTask, hloopE]
  · simp [runCustomPlanRun, finishTask, hloopC]
  · simp [runCustomPlanRun, finishTask, hloopC]
  · simp [runCustomPlanRun, finishTask, hloopC]
  · simp [runCustomPlanRun, finishTask, hloopC]

open CodeCompanionManager SafetyValidator in
/-- Witness for C2 (amended): one completed step, then an unsafe dangerous
command, then one untouched step. -/
theorem c2_unsafe_step_failfast_witness :
    (executeTaskRun
      { activeAt := fun _ => true, execAt := fun _ => .success "ok" }
      "task_2" .implement {} {}
      ([{ id := "u0" }] ++ [{ id := "u1", type := "terminal_command", parameters := { command := some "rm -rf /" } }, { id := "u2" }])
      300).1.steps
      = completeFrom (fun _ => "ok") 0 [{ id := "u0" }]
        ++ failWith ("Safety validation failed: "
             ++ (validateStep (markRunning
                  { id := "u1", type := "terminal_command",
                    parameters := { command := some "rm -rf /" } }) {}).reason.getD "undefined")
             { id := "u1", type := "terminal_command",
               parameters := { command := some "rm -rf /" } }
        :: [{ id := "u2" }] ∧
    (executeTaskRun
      { activeAt := fun _ => true, execAt := fun _ => .success "ok" }
      "task_2" .implement {} {}
      ([{ id := "u0" }] ++ [{ id := "u1", type := "terminal_command", parameters := { command := some "rm -rf /" } }, { id := "u2" }])
      300).1.status = .failed ∧
    (executeTaskRun
      { activeAt := fun _ => true, execAt := fun _ => .success "ok" }
      "task_2" .implement {} {}
      ([{ id := "u0" }] ++ [{ id := "u1", type := "terminal_command", parameters := { command := some "rm -rf /" } }, { id := "u2" }])
      300).1.error
      = some ("Safety validation failed: "
          ++ (validateStep (markRunning
               { id := "u1", type := "terminal_command",
                 parameters := { command := some "rm -rf /" } }) {}).reason.getD "undefined") ∧
    (runCustomPlanRun
      { activeAt := fun _ => true, execAt := fun _ => .success "ok" }
      "task_2" .implement {} {}
      ([{ id := "u0" }] ++ [{ id := "u1", type := "terminal_command", parameters := { command := some "rm -rf /" } }, { id := "u2" }])).1.steps
      = completeFrom (fun _ => "ok") 0 [{ id := "u0" }]
        ++ markRunning { id := "u1", type := "terminal_command", parameters := { command := some "rm -rf /" } }
        :: [{ id := "u2" }] :=
  have h := c2_unsafe_step_failfast
    { activeAt := fun _ => true, execAt := fun _ => .success "ok" }
    "task_2" .implement {} {} 300 (fun _ => "ok")
    [{ id := "u0" }]
    { id := "u1", type := "terminal_command",
      parameters := { command := some "rm -rf /" } }
    [{ id := "u2" }]
    (by intro s hs; fin_cases hs <;> rfl)
    (by intro j hj; simp only [List.length_cons, List.length_nil] at hj
        interval_cases j <;> rfl)
    (by intro j hj; simp only [List.length_cons, List.length_nil] at hj
        interval_cases j <;> rfl)
    (by intro j hj; simp only [List.length_cons, List.length_nil] at hj
        interval_cases j <;> rfl)
    (by decide)
  ⟨h.1, h.2.1, h.2.2.1, h.2.2.2.2.2.2.2.1⟩

open CodeCompanionManager in
/-- C4: the task history is FIFO-bounded at 50: a push on a history of at
most 50 keeps it at most 50; a push on a full history evicts exactly the
oldest entry, preserving the order of the rest; and folding 51 terminal
results into an empty history leaves exactly results 2..51 in submission
order (the first result is gone). -/
theorem c4_history_bounded_fifo :
    (∀ (h : List TaskResult) (r : TaskResult),
        h.length ≤ 50 → (pushToHistory h r).length ≤ 50) ∧
    (∀ (h : List TaskResult) (r : TaskResult),
        h.length = 50 → pushToHistory h r = h.tail ++ [r]) ∧
    (∀ rs : List TaskResult,
        rs.length = 51 → List.foldl pushToHistory [] rs = rs.tail) := by
  refine ⟨?_, ?_, ?_⟩
  · intro h r hle
    simp only [pushToHistory]
    split
    · simp only [List.length_tail, List.length_append, List.length_cons, List.length_nil]
      omega
    · next hng =>
        simp only [List.length_append, List.length_cons, List.length_nil] at hng ⊢
        omega
  · intro h r h50
    exact pushToHistory_full h r h50
  · intro rs h51
    have hne : rs ≠ [] := by
      intro hnil; rw [hnil] at h51; exact absurd h51 (by decide)
    have hdl : rs.dropLast.length = 50 := by
      rw [List.length_dropLast, h51]
    conv_lhs => rw [← List.dropLast_append_getLast hne]
    rw [List.foldl_append, foldl_pushToHistory_small rs.dropLast [] (by simp [hdl]),
        List.nil_append, List.foldl_cons, List.foldl_nil,
        pushToHistory_full rs.dropLast _ hdl]
    conv_rhs => rw [← List.dropLast_append_getLast hne]
    rw [tail_append_singleton]
    intro hnil
    rw [hnil] at hdl
    exact absurd hdl (by decide)

open CodeCompanionManager in
/-- Witness for C4 at a concrete history of 50 identical records and a run
of 51 pushes. -/
theorem c4_history_bounded_fifo_witness :
    (pushToHistory
        (List.replicate 50 { taskId := "t0", type := .fix, success := true })
        { taskId := "t51", type := .fix, success := true }).length ≤ 50 ∧
    pushToHistory
        (List.replicate 50 { taskId := "t0", type := .fix, success := true })
        { taskId := "t51", type := .fix, success := true }
      = (List.replicate 50
          ({ taskId := "t0", type := .fix, success := true } : TaskResult)).tail
        ++ [{ taskId := "t51", type := .fix, success := true }] ∧
    List.foldl pushToHistory []
        (List.replicate 51 { taskId := "t0", type := .fix, success := true })
      = (List.replicate 51
          ({ taskId := "t0", type := .fix, success := true } : TaskResult)).tail :=
  ⟨c4_history_bounded_fifo.1 _ _ (by simp),
   c4_history_bounded_fifo.2.1 _ _ (by simp),
   c4_history_bounded_fifo.2.2 _ (by simp)⟩

open CodeCompanionManager in
/-- C6: after a terminal transition — the synchronous push-to-history plus
active-map delete, or a cancellation — `getTaskById` on that id returns
`none`; the finalized result is recorded in history; and the disjointness
invariant (no id at once in the active map and in history) holds initially
and is preserved by every transition, given that submitted task ids are
fresh. -/
theorem c6_terminal_tasks_leave_active_map :
    (∀ (s : ManagerState) (r : TaskResult),
        getTaskById (applyOp s (.finalize r)) r.taskId = none) ∧
    (∀ (s : ManagerState) (taskId : String),
        getTaskById (applyOp s (.cancel taskId)) taskId = none) ∧
    (∀ (s : ManagerState) (r : TaskResult),
        r ∈ (applyOp s (.finalize r)).taskHistory) ∧
    ActiveHistoryDisjoint initState ∧
    (∀ (s : ManagerState) (op : MOp),
        ActiveHistoryDisjoint s → opOk s op → ActiveHistoryDisjoint (applyOp s op)) := by
  refine ⟨?_, ?_, ?_, ?_, ?_⟩
  · intro s r
    exact getTaskById_deleteActive _ _
  · intro s taskId
    simp only [applyOp]
    split
    · exact getTaskById_deleteActive _ _
    · next hnone => exact hnone
  · intro s r
    exact mem_pushToHistory_self _ _
  · intro p hp r hr
    simp [initState] at hp
  · intro s op hInv hok
    cases op with
    | submit t =>
        intro p hp r hr
        simp only [applyOp] at hp hr
        rcases List.mem_cons.mp hp with rfl | hp'
        · intro heq
          exact hok.2 r hr (by rw [← heq])
        · exact hInv p hp' r hr
    | finalize res =>
        intro p hp r hr
        simp only [applyOp, deleteActive] at hp hr
        have hp' := List.mem_filter.mp hp
        have hpne : ¬ p.1 = res.taskId := by simpa using hp'.2
        rcases mem_pushToHistory_elim _ _ _ hr with h1 | rfl
        · exact hInv p hp'.1 r h1
        · exact hpne
    | cancel taskId =>
        intro p hp r hr
        simp only [applyOp] at hp hr
        revert hp hr
        split
        · intro hp hr
          simp only [deleteActive] at hp
          exact hInv p (List.mem_filter.mp hp).1 r hr
        · intro hp hr
          exact hInv p hp r hr

open CodeCompanionManager in
/-- Witness for C6 at a one-task state. -/
theorem c6_terminal_tasks_leave_active_map_witness :
    getTaskById
      (applyOp
        { activeTasks := [("t1", { id := "t1", type := .fix, status := .executing })],
          taskHistory := [] }
        (.finalize { taskId := "t1", type := .fix, success := true }))
      "t1" = none ∧
    getTaskById
      (applyOp
        { activeTasks := [("t1", { id := "t1", type := .fix, status := .executing })],
          taskHistory := [] }
        (.cancel "t1"))
      "t1" = none ∧
    ActiveHistoryDisjoint
      (applyOp
        { activeTasks := ([] : List (String × Task)), taskHistory := [] }
        (.submit { id := "t1", type := .fix, status := .planning })) :=
  ⟨c6_terminal_tasks_leave_active_map.1 _ _,
   c6_terminal_tasks_leave_active_map.2.1 _ _,
   c6_terminal_tasks_leave_active_map.2.2.2.2 _ _
     (c6_terminal_tasks_leave_active_map.2.2.2.1)
     ⟨fun p hp => by simp at hp, fun r hr => by simp at hr⟩⟩

end CodeCompanion
